import Mathlib

/-!
Shallow embedding of the eduservices ERP backend (Express route handlers over
a relational store) and proofs about its order, payment, stock and ledger
logic.

Tables are lists of rows; each request handler becomes a function
`DB → args → Except Err DB`.  A handler that throws (and hence rolls back its
transaction) is modelled by returning `.error e`: the caller keeps the old
state, which is made explicit by the `run*` wrappers below.  Monetary and
stock quantities are rationals (the JS code manipulates `parseFloat` results
with exact-looking arithmetic); ids are naturals.
-/

namespace EduServices

/-! ## Data model (from the SQL schema used by the handlers) -/

/-- A row of `products` (fields used by the handlers under study). -/
structure Product where
  id : Nat
  name : String
  price : ℚ
  stock : ℚ
  supplier : Option Nat
  deriving Repr, DecidableEq

inductive OrderStatus where
  | pending
  | processing
  | completed
  | cancelled
  deriving Repr, DecidableEq

/-- Models `orders.payment_status`: the strings "pending", "partial", "paid"
(`partialPaid` stands for the string "partial", which is a reserved word
here). -/
inductive PaymentStatus where
  | pending
  | partialPaid
  | paid
  deriving Repr, DecidableEq

/-- A row of `orders`. -/
structure Order where
  id : Nat
  customer_id : Option Nat
  subtotal : ℚ
  tax_amount : ℚ
  discount_amount : ℚ
  discount_percentage : ℚ
  total : ℚ
  status : OrderStatus
  payment_status : PaymentStatus
  payment_method : String
  created_at : Nat
  deriving Repr, DecidableEq

/-- A row of `order_items`. -/
structure OrderItem where
  order_id : Nat
  product_id : Nat
  product_name : String
  quantity : ℚ
  unit_price : ℚ
  total : ℚ
  supplier_id : Option Nat
  deriving Repr, DecidableEq

/-- A row of `stock_movements` (append-only audit log). -/
structure StockMovement where
  product_id : Nat
  movement_type : String
  quantity : ℚ
  reference_type : String
  reference_id : Nat
  deriving Repr, DecidableEq

/-- A row of `payments`.  `status` is a free-form string in the schema;
the handlers compare it against "completed". -/
structure Payment where
  id : Nat
  order_id : Option Nat
  invoice_id : Option Nat
  customer_id : Option Nat
  amount : ℚ
  payment_method : String
  status : String
  payment_date : Nat
  deriving Repr, DecidableEq

/-- A row of `invoices` (fields read by the payment handler). -/
structure Invoice where
  id : Nat
  customer_id : Option Nat
  total : ℚ
  paid_amount : ℚ
  status : String
  deriving Repr, DecidableEq

inductive POStatus where
  | pending
  | confirmed
  | received
  | cancelled
  deriving Repr, DecidableEq

/-- A row of `purchase_orders`. -/
structure PurchaseOrder where
  id : Nat
  supplier_id : Option Nat
  status : POStatus
  deriving Repr, DecidableEq

/-- A row of `purchase_order_items`. -/
structure PurchaseOrderItem where
  purchase_order_id : Nat
  product_id : Nat
  quantity : ℚ
  received_quantity : ℚ
  deriving Repr, DecidableEq

/-- A row of `customers`.  `balance` is the legacy stored column. -/
structure Customer where
  id : Nat
  name : String
  balance : ℚ
  deriving Repr, DecidableEq

/-- One line of a per-supplier sales group in a register summary. -/
structure SaleLine where
  product_name : String
  quantity : ℚ
  unit_price : ℚ
  sale_type : String
  total : ℚ
  deriving Repr, DecidableEq

/-- A per-supplier group of the day's sales, as the summary endpoint builds it. -/
structure SupplierSalesGroup where
  supplier_name : String
  items : List SaleLine
  supplier_total : ℚ
  deriving Repr, DecidableEq

/-- One row of the day's completed payments in a register summary. -/
structure PaymentRow where
  payment_id : Nat
  payment_date : Nat
  amount : ℚ
  payment_method : String
  order_id : Option Nat
  deriving Repr, DecidableEq

/-- One inventory line (product name and its integer-truncated stock). -/
structure InventoryLine where
  product_name : String
  stock : Int
  deriving Repr, DecidableEq

/-- A per-supplier group of remaining inventory in a register summary. -/
structure InventoryGroup where
  supplier_name : String
  items : List InventoryLine
  total_items : Int
  deriving Repr, DecidableEq

/-- The composite `details` JSON stored by a register closure. -/
structure CompositeDetails where
  sales : List SupplierSalesGroup
  payments : List PaymentRow
  inventory : List InventoryGroup
  deriving Repr, DecidableEq

/-- A row of `register_closures`. -/
structure RegisterClosure where
  total_sales : ℚ
  details : CompositeDetails
  notes : Option String
  user_id : Option Nat
  deriving Repr, DecidableEq

/-- A row of `suppliers` (only id and name are read by the code under study). -/
structure Supplier where
  id : Nat
  name : String
  deriving Repr, DecidableEq

/-- The relational state shared by all handlers.  `next_order_id` and
`next_payment_id` model the database-generated primary keys of freshly
inserted rows; `today` models `CURRENT_TIMESTAMP`'s date. -/
structure DB where
  products : List Product
  orders : List Order
  order_items : List OrderItem
  stock_movements : List StockMovement
  payments : List Payment
  invoices : List Invoice
  purchase_orders : List PurchaseOrder
  purchase_order_items : List PurchaseOrderItem
  customers : List Customer
  suppliers : List Supplier
  register_closures : List RegisterClosure
  next_order_id : Nat
  next_payment_id : Nat
  today : Nat
  deriving Repr, DecidableEq

/-! ## Row access helpers (SELECT ... WHERE id / UPDATE ... WHERE id) -/

/-- Models `SELECT stock FROM products WHERE id = pid` (first row). -/
def getStock (ps : List Product) (pid : Nat) : Option ℚ :=
  (ps.find? (fun p => p.id == pid)).map Product.stock

/-- Models `UPDATE products SET stock = s WHERE id = pid`. -/
def setStock (ps : List Product) (pid : Nat) (s : ℚ) : List Product :=
  ps.map (fun p => if p.id == pid then { p with stock := s } else p)

/-! ## Order placement (`router.post('/')` in the orders route file)

Phase 1 walks the request items over the unmodified `products` table,
checking existence and `stock ≥ quantity` and computing line totals.
Phase 2 inserts the order row and then, per item, inserts the order item,
re-reads the product's (by now possibly updated) stock, writes the
decremented stock, and appends an `out`/`sale` stock movement.  Any failure
rolls the whole transaction back. -/

/-- One item of an order-placement request. -/
structure ReqItem where
  product_id : Nat
  quantity : ℚ
  unit_price : Option ℚ
  supplier_id : Option Nat
  deriving Repr, DecidableEq

/-- An order-placement request body. -/
structure OrderReq where
  customer_id : Option Nat
  items : List ReqItem
  payment_method : String
  discount_percentage : ℚ
  deriving Repr, DecidableEq

inductive OrderError where
  | productNotFound (pid : Nat)
  | insufficientStock (name : String) (available requested : ℚ)
  | orderNotFound
  | invalidFromCancelled
  | invalidFromCompleted
  deriving Repr, DecidableEq

/-- A processed line item (product looked up, price resolved, total computed). -/
structure ProcItem where
  product_id : Nat
  product_name : String
  supplier_id : Option Nat
  quantity : ℚ
  unit_price : ℚ
  total : ℚ
  deriving Repr, DecidableEq

/-- Models `parseFloat(item.unit_price) || parseFloat(product.price)`: a missing or
zero requested price falls back to the catalog price. -/
def resolvePrice (requested : Option ℚ) (productPrice : ℚ) : ℚ :=
  match requested with
  | none => productPrice
  | some q => if q = 0 then productPrice else q

/-- Phase 1 of order placement: lookup, stock check, line totals. -/
def processItems (products : List Product) : List ReqItem → Except OrderError (List ProcItem)
  | [] => .ok []
  | item :: rest =>
    match products.find? (fun p => p.id == item.product_id) with
    | none => .error (.productNotFound item.product_id)
    | some product =>
      if product.stock < item.quantity then
        .error (.insufficientStock product.name product.stock item.quantity)
      else
        match processItems products rest with
        | .error e => .error e
        | .ok pis =>
          let up := resolvePrice item.unit_price product.price
          .ok ({ product_id := item.product_id, product_name := product.name,
                 supplier_id := item.supplier_id, quantity := item.quantity,
                 unit_price := up, total := item.quantity * up } :: pis)

/-- The `order_items` row inserted for a processed item. -/
def toOrderItem (oid : Nat) (it : ProcItem) : OrderItem :=
  { order_id := oid, product_id := it.product_id, product_name := it.product_name,
    quantity := it.quantity, unit_price := it.unit_price, total := it.total,
    supplier_id := it.supplier_id }

/-- The `out`/`sale` stock movement appended for a processed item. -/
def toSaleMovement (oid : Nat) (it : ProcItem) : StockMovement :=
  { product_id := it.product_id, movement_type := "out", quantity := it.quantity,
    reference_type := "sale", reference_id := oid }

/-- Phase 2 of order placement: per item, insert the order item, re-read the
product's stock, write the decrement, append the movement. -/
def applyItems (oid : Nat) : List ProcItem → DB → Except OrderError DB
  | [], db => .ok db
  | it :: rest, db =>
    match getStock db.products it.product_id with
    | none => .error (.productNotFound it.product_id)
    | some s =>
      applyItems oid rest
        { db with
          order_items := db.order_items ++ [toOrderItem oid it],
          products := setStock db.products it.product_id (s - it.quantity),
          stock_movements := db.stock_movements ++ [toSaleMovement oid it] }

/-- The `orders` row the create-order handler inserts: subtotal is the sum
of the line totals, the discount is a percentage of the subtotal, the tax is
a 0% multiplier on the post-discount subtotal, and the total adds them up. -/
def newOrderOf (db : DB) (req : OrderReq) (pis : List ProcItem) : Order :=
  let subtotal := (pis.map ProcItem.total).sum
  let discountAmount := subtotal * req.discount_percentage / 100
  let subtotalAfterDiscount := subtotal - discountAmount
  let taxRate : ℚ := 0
  let taxAmount := subtotalAfterDiscount * taxRate
  { id := db.next_order_id, customer_id := req.customer_id, subtotal := subtotal,
    tax_amount := taxAmount, discount_amount := discountAmount,
    discount_percentage := req.discount_percentage,
    total := subtotalAfterDiscount + taxAmount,
    status := .pending, payment_status := .pending,
    payment_method := req.payment_method, created_at := db.today }

/-- Models `POST /api/orders`: the whole create-order transaction. -/
def createOrder (db : DB) (req : OrderReq) : Except OrderError DB :=
  match processItems db.products req.items with
  | .error e => .error e
  | .ok pis =>
    applyItems db.next_order_id pis
      { db with orders := db.orders ++ [newOrderOf db req pis],
                next_order_id := db.next_order_id + 1 }

/-- Commit-or-rollback wrapper: an error leaves the store unchanged. -/
def runCreateOrder (db : DB) (req : OrderReq) : DB :=
  match createOrder db req with
  | .ok db' => db'
  | .error _ => db

/-! ### Decidable request-level preconditions -/

/-- The check phase 1 performs on one item: product found and
`stock ≥ quantity`. -/
def itemOk (products : List Product) (it : ReqItem) : Bool :=
  match products.find? (fun p => p.id == it.product_id) with
  | some p => decide (it.quantity ≤ p.stock)
  | none => false

/-- The product referenced by an item exists. -/
def itemFound (products : List Product) (it : ReqItem) : Bool :=
  (products.find? (fun p => p.id == it.product_id)).isSome

/-- The item's requested quantity exceeds its product's current stock. -/
def itemShort (products : List Product) (it : ReqItem) : Bool :=
  match products.find? (fun p => p.id == it.product_id) with
  | some p => decide (p.stock < it.quantity)
  | none => false

/-- Sum of the quantities a processed-item list orders for one product. -/
def sumQty (pis : List ProcItem) (pid : Nat) : ℚ :=
  ((pis.filter (fun it => it.product_id == pid)).map ProcItem.quantity).sum

/-- Sum of the quantities a request orders for one product. -/
def sumReqQty (items : List ReqItem) (pid : Nat) : ℚ :=
  ((items.filter (fun it => it.product_id == pid)).map ReqItem.quantity).sum

/-- Sum of the quantities a list of order items carries for one product. -/
def sumItemQty (items : List OrderItem) (pid : Nat) : ℚ :=
  ((items.filter (fun it => it.product_id == pid)).map OrderItem.quantity).sum

/-- Sum of the quantities a list of purchase-order items carries for one
product. -/
def sumPOQty (items : List PurchaseOrderItem) (pid : Nat) : ℚ :=
  ((items.filter (fun it => it.product_id == pid)).map PurchaseOrderItem.quantity).sum

/-! ## Order status transitions (`router.patch('/:id/status')` in the orders
route file)

Guards: away from `cancelled` and away from `completed` are rejected.  Any
other target status is written unconditionally.  Transitioning into
`cancelled` from a non-cancelled state first restores stock per order item
and appends an `in`/`return` movement per item. -/

/-- The `in`/`return` stock movement appended when an order item is restored. -/
def toReturnMovement (oid : Nat) (it : OrderItem) : StockMovement :=
  { product_id := it.product_id, movement_type := "in", quantity := it.quantity,
    reference_type := "return", reference_id := oid }

/-- The per-item stock-restoration loop of the cancellation branch. -/
def restoreItems (oid : Nat) : List OrderItem → DB → Except OrderError DB
  | [], db => .ok db
  | it :: rest, db =>
    match getStock db.products it.product_id with
    | none => .error (.productNotFound it.product_id)
    | some s =>
      restoreItems oid rest
        { db with
          products := setStock db.products it.product_id (s + it.quantity),
          stock_movements := db.stock_movements ++ [toReturnMovement oid it] }

/-- Models `UPDATE orders SET status = st WHERE id = oid`. -/
def setOrderStatus (orders : List Order) (oid : Nat) (st : OrderStatus) : List Order :=
  orders.map (fun o => if o.id == oid then { o with status := st } else o)

/-- Models `PATCH /api/orders/:id/status`. -/
def updateOrderStatus (db : DB) (oid : Nat) (newStatus : OrderStatus) :
    Except OrderError DB :=
  match db.orders.find? (fun o => o.id == oid) with
  | none => .error .orderNotFound
  | some o =>
    if o.status = .cancelled ∧ newStatus ≠ .cancelled then .error .invalidFromCancelled
    else if o.status = .completed ∧ newStatus ≠ .completed then .error .invalidFromCompleted
    else
      match
        (if newStatus = .cancelled ∧ o.status ≠ .cancelled then
          restoreItems oid (db.order_items.filter (fun it => it.order_id == oid)) db
        else .ok db) with
      | .error e => .error e
      | .ok db1 => .ok { db1 with orders := setOrderStatus db1.orders oid newStatus }

/-- Commit-or-rollback wrapper for the status PATCH. -/
def runUpdateOrderStatus (db : DB) (oid : Nat) (st : OrderStatus) : DB :=
  match updateOrderStatus db oid st with
  | .ok db' => db'
  | .error _ => db

/-! ## Payments (`src/routes/payments.js`)

Creation validates the input, resolves the target (the invoice branch takes
precedence when both ids are present), re-sums the target's existing
completed payments, rejects if the new cumulative sum would exceed the
target's total, inserts the payment with status `completed`, and recomputes
the invoice's status / the linked order's `payment_status`.  Update and
delete recompute the linked order's `payment_status` the same way. -/

/-- A payment-creation request body.  `amount = 0` models the falsy
`!amount` case of the JS required-field check. -/
structure PayReq where
  order_id : Option Nat
  invoice_id : Option Nat
  customer_id : Option Nat
  amount : ℚ
  payment_method : Option String
  deriving Repr, DecidableEq

inductive PayError where
  | missingFields
  | nonPositiveAmount
  | invoiceNotFound
  | orderNotFound
  | paymentNotFound
  | exceedsBalance (total alreadyPaid remaining : ℚ)
  | noFieldsToUpdate
  deriving Repr, DecidableEq

/-- Sum of the completed payments recorded against an order. -/
def sumCompletedOrder (db : DB) (oid : Nat) : ℚ :=
  ((db.payments.filter
      (fun p => p.order_id == some oid && p.status == "completed")).map
    Payment.amount).sum

/-- Sum of the completed payments recorded against an invoice. -/
def sumCompletedInvoice (db : DB) (iid : Nat) : ℚ :=
  ((db.payments.filter
      (fun p => p.invoice_id == some iid && p.status == "completed")).map
    Payment.amount).sum

/-- The three-way classification the handlers use for
`orders.payment_status`. -/
def classify (paid total : ℚ) : PaymentStatus :=
  if total ≤ paid then .paid
  else if 0 < paid then .partialPaid
  else .pending

/-- Models `UPDATE orders SET payment_status = st WHERE id = oid`. -/
def setOrderPayStatus (orders : List Order) (oid : Nat) (st : PaymentStatus) :
    List Order :=
  orders.map (fun o => if o.id == oid then { o with payment_status := st } else o)

/-- Models `UPDATE invoices SET paid_amount = a, status = st WHERE id = iid`. -/
def setInvoicePaid (invoices : List Invoice) (iid : Nat) (a : ℚ) (st : String) :
    List Invoice :=
  invoices.map (fun i => if i.id == iid then { i with paid_amount := a, status := st } else i)

/-- Models `POST /api/payments`. -/
def createPayment (db : DB) (r : PayReq) : Except PayError DB :=
  if (r.order_id.isNone && r.invoice_id.isNone) || r.amount == 0
      || r.payment_method.isNone then
    .error .missingFields
  else if r.amount ≤ 0 then
    .error .nonPositiveAmount
  else
    match r.invoice_id with
    | some iid =>
      match db.invoices.find? (fun i => i.id == iid) with
      | none => .error .invoiceNotFound
      | some inv =>
        let totalToPay := inv.total
        let currentlyPaid := sumCompletedInvoice db iid
        let newTotalPaid := currentlyPaid + r.amount
        if totalToPay < newTotalPaid then
          .error (.exceedsBalance totalToPay currentlyPaid (totalToPay - currentlyPaid))
        else
          let pay : Payment :=
            { id := db.next_payment_id, order_id := r.order_id,
              invoice_id := some iid,
              customer_id := r.customer_id <|> inv.customer_id,
              amount := r.amount,
              payment_method := r.payment_method.getD "",
              status := "completed", payment_date := db.today }
          let invStatus := if totalToPay ≤ newTotalPaid then "paid" else "pending"
          let db1 :=
            { db with payments := db.payments ++ [pay],
                      next_payment_id := db.next_payment_id + 1,
                      invoices := setInvoicePaid db.invoices iid newTotalPaid invStatus }
          match r.order_id with
          | some oid =>
            .ok { db1 with
                  orders := setOrderPayStatus db1.orders oid (classify newTotalPaid totalToPay) }
          | none => .ok db1
    | none =>
      match r.order_id with
      | some oid =>
        match db.orders.find? (fun o => o.id == oid) with
        | none => .error .orderNotFound
        | some o =>
          let totalToPay := o.total
          let currentlyPaid := sumCompletedOrder db oid
          let newTotalPaid := currentlyPaid + r.amount
          if totalToPay < newTotalPaid then
            .error (.exceedsBalance totalToPay currentlyPaid (totalToPay - currentlyPaid))
          else
            let pay : Payment :=
              { id := db.next_payment_id, order_id := some oid, invoice_id := none,
                customer_id := r.customer_id <|> o.customer_id,
                amount := r.amount,
                payment_method := r.payment_method.getD "",
                status := "completed", payment_date := db.today }
            let db1 :=
              { db with payments := db.payments ++ [pay],
                        next_payment_id := db.next_payment_id + 1 }
            .ok { db1 with
                  orders := setOrderPayStatus db1.orders oid (classify newTotalPaid totalToPay) }
      | none => .error .missingFields

/-- Commit-or-rollback wrapper for payment creation. -/
def runCreatePayment (db : DB) (r : PayReq) : DB :=
  match createPayment db r with
  | .ok db' => db'
  | .error _ => db

/-- The payment row the order branch of `createPayment` inserts. -/
def orderPayRow (db : DB) (r : PayReq) (oid : Nat) (o : Order) : Payment :=
  { id := db.next_payment_id, order_id := some oid, invoice_id := none,
    customer_id := r.customer_id <|> o.customer_id, amount := r.amount,
    payment_method := r.payment_method.getD "", status := "completed",
    payment_date := db.today }

/-- The state the order branch of `createPayment` commits on acceptance. -/
def payOrderResult (db : DB) (r : PayReq) (oid : Nat) (o : Order) : DB :=
  { db with
    payments := db.payments ++ [orderPayRow db r oid o],
    next_payment_id := db.next_payment_id + 1,
    orders := setOrderPayStatus db.orders oid
      (classify (sumCompletedOrder db oid + r.amount) o.total) }

/-- The payment row the invoice branch of `createPayment` inserts. -/
def invoicePayRow (db : DB) (r : PayReq) (iid : Nat) (inv : Invoice) : Payment :=
  { id := db.next_payment_id, order_id := r.order_id, invoice_id := some iid,
    customer_id := r.customer_id <|> inv.customer_id, amount := r.amount,
    payment_method := r.payment_method.getD "", status := "completed",
    payment_date := db.today }

/-- The invoice-branch writes shared by both order-id cases. -/
def payInvoiceBase (db : DB) (r : PayReq) (iid : Nat) (inv : Invoice) : DB :=
  { db with
    payments := db.payments ++ [invoicePayRow db r iid inv],
    next_payment_id := db.next_payment_id + 1,
    invoices := setInvoicePaid db.invoices iid (sumCompletedInvoice db iid + r.amount)
      (if inv.total ≤ sumCompletedInvoice db iid + r.amount then "paid" else "pending") }

/-- The state the invoice branch of `createPayment` commits on acceptance
(the linked order's `payment_status`, when an order id was also supplied,
is classified against the invoice's totals). -/
def payInvoiceResult (db : DB) (r : PayReq) (iid : Nat) (inv : Invoice) : DB :=
  match r.order_id with
  | some oid =>
    { payInvoiceBase db r iid inv with
      orders := setOrderPayStatus (payInvoiceBase db r iid inv).orders oid
        (classify (sumCompletedInvoice db iid + r.amount) inv.total) }
  | none => payInvoiceBase db r iid inv

/-- The updatable fields of `PUT /api/payments/:id` that the claims touch. -/
structure PayUpdate where
  amount : Option ℚ
  payment_method : Option String
  status : Option String
  deriving Repr, DecidableEq

/-- Field-wise application of a payment update to a row. -/
def applyPayUpdate (p : Payment) (u : PayUpdate) : Payment :=
  { p with
    amount := u.amount.getD p.amount,
    payment_method := u.payment_method.getD p.payment_method,
    status := u.status.getD p.status }

/-- After a payment write, recompute the linked order's `payment_status` by
re-summing its completed payments (the shared tail of the update and delete
handlers). -/
def recomputeOrderPayStatus (db : DB) (oid : Nat) : Except PayError DB :=
  match db.orders.find? (fun o => o.id == oid) with
  | none => .error .orderNotFound
  | some o =>
    .ok { db with
          orders := setOrderPayStatus db.orders oid (classify (sumCompletedOrder db oid) o.total) }

/-- Models `PUT /api/payments/:id`. -/
def updatePayment (db : DB) (pid : Nat) (u : PayUpdate) : Except PayError DB :=
  match db.payments.find? (fun p => p.id == pid) with
  | none => .error .paymentNotFound
  | some pay =>
    if u.amount.isNone && u.payment_method.isNone && u.status.isNone then
      .error .noFieldsToUpdate
    else
      let db1 :=
        { db with payments := db.payments.map (fun p => if p.id == pid then applyPayUpdate p u else p) }
      match pay.order_id with
      | some oid => recomputeOrderPayStatus db1 oid
      | none => .ok db1

/-- Models `DELETE /api/payments/:id`. -/
def deletePayment (db : DB) (pid : Nat) : Except PayError DB :=
  match db.payments.find? (fun p => p.id == pid) with
  | none => .error .paymentNotFound
  | some pay =>
    let db1 := { db with payments := db.payments.filter (fun p => !(p.id == pid)) }
    match pay.order_id with
    | some oid => recomputeOrderPayStatus db1 oid
    | none => .ok db1

/-! ## Purchase-order receiving (`src/routes/purchaseOrders.js`,
`router.patch('/:id/status')`)

Only the transition into `received` from a non-`received` state has side
effects: per line item, credit the product's stock, set
`received_quantity = quantity`, and append an `in`/`purchase` movement.
The status itself is then written unconditionally. -/

/-- The `in`/`purchase` stock movement appended when a line item is received. -/
def toPurchaseMovement (poid : Nat) (it : PurchaseOrderItem) : StockMovement :=
  { product_id := it.product_id, movement_type := "in", quantity := it.quantity,
    reference_type := "purchase", reference_id := poid }

/-- Models `UPDATE purchase_order_items SET received_quantity = quantity WHERE
purchase_order_id = poid AND product_id = pid`. -/
def markReceived (items : List PurchaseOrderItem) (poid pid : Nat) :
    List PurchaseOrderItem :=
  items.map (fun it =>
    if it.purchase_order_id == poid && it.product_id == pid then
      { it with received_quantity := it.quantity }
    else it)

/-- The per-item stock-credit loop of the receive branch. -/
def receiveItems (poid : Nat) : List PurchaseOrderItem → DB → Except OrderError DB
  | [], db => .ok db
  | it :: rest, db =>
    match getStock db.products it.product_id with
    | none => .error (.productNotFound it.product_id)
    | some s =>
      receiveItems poid rest
        { db with
          products := setStock db.products it.product_id (s + it.quantity),
          purchase_order_items := markReceived db.purchase_order_items poid it.product_id,
          stock_movements := db.stock_movements ++ [toPurchaseMovement poid it] }

/-- Models `UPDATE purchase_orders SET status = st WHERE id = poid`. -/
def setPOStatus (pos : List PurchaseOrder) (poid : Nat) (st : POStatus) :
    List PurchaseOrder :=
  pos.map (fun po => if po.id == poid then { po with status := st } else po)

/-- Models `PATCH /api/purchase-orders/:id/status`. -/
def updatePOStatus (db : DB) (poid : Nat) (st : POStatus) : Except OrderError DB :=
  match db.purchase_orders.find? (fun po => po.id == poid) with
  | none => .error .orderNotFound
  | some po =>
    match
      (if st = .received ∧ po.status ≠ .received then
        receiveItems poid
          (db.purchase_order_items.filter (fun it => it.purchase_order_id == poid)) db
      else .ok db) with
    | .error e => .error e
    | .ok db1 => .ok { db1 with purchase_orders := setPOStatus db1.purchase_orders poid st }

/-- Commit-or-rollback wrapper for the purchase-order status PATCH. -/
def runUpdatePOStatus (db : DB) (poid : Nat) (st : POStatus) : DB :=
  match updatePOStatus db poid st with
  | .ok db' => db'
  | .error _ => db

/-! ## Manual stock adjustment (`router.patch('/products/:id/stock')`)

The adjustment is added or subtracted depending on the movement type; the
write is refused if the resulting stock would be negative. -/

/-- Truncation toward zero, as `parseInt` does on a numeric value. -/
def truncQ (q : ℚ) : Int := q.num / (q.den : Int)

/-- The new stock value the adjustment handler computes for a movement type. -/
def adjustedStock (current adjustment : ℚ) (ty : String) : ℚ :=
  if ty == "sale" || ty == "loss" then current - |adjustment|
  else current + adjustment

/-- Models `PATCH /api/products/:id/stock`. -/
def adjustStock (db : DB) (pid : Nat) (quantity : ℚ) (ty : String) :
    Except OrderError DB :=
  match db.products.find? (fun p => p.id == pid) with
  | none => .error (.productNotFound pid)
  | some p =>
    let newStock := adjustedStock p.stock quantity ty
    if newStock < 0 then .error (.insufficientStock p.name p.stock quantity)
    else
      .ok { db with
            products := setStock db.products pid newStock,
            stock_movements := db.stock_movements ++
              [{ product_id := pid, movement_type := ty, quantity := quantity,
                 reference_type := "", reference_id := 0 }] }

/-- Commit-or-rollback wrapper for the stock adjustment. -/
def runAdjustStock (db : DB) (pid : Nat) (q : ℚ) (ty : String) : DB :=
  match adjustStock db pid q ty with
  | .ok db' => db'
  | .error _ => db

/-! ## Derived customer balances (`src/routes/billing.js`)

`GET /api/customers` computes per row `total_spent` (sum of ALL of the
customer's order totals) and `total_paid` (sum of completed payments) and
returns `balance = total_spent - total_paid`; `GET /api/customers/:id/account`
sums the same two ledgers in JS.  The stored `customers.balance` column is
written only by `PATCH /api/customers/:id/balance`. -/

/-- Models `total_spent` of the customers list endpoint:
`SELECT COALESCE(SUM(total), 0) FROM orders WHERE customer_id = c.id`. -/
def customerTotalSpent (db : DB) (cid : Nat) : ℚ :=
  ((db.orders.filter (fun o => o.customer_id == some cid)).map Order.total).sum

/-- Models `total_paid` of the customers list endpoint: completed payments only. -/
def customerTotalPaid (db : DB) (cid : Nat) : ℚ :=
  ((db.payments.filter
      (fun p => p.customer_id == some cid && p.status == "completed")).map
    Payment.amount).sum

/-- The dynamically calculated balance of `GET /api/customers`. -/
def customersListBalance (db : DB) (cid : Nat) : ℚ :=
  customerTotalSpent db cid - customerTotalPaid db cid

/-- Models `totalSales` of `GET /api/customers/:id/account` (no date filter): every
order row of the customer, summed in JS. -/
def accountTotalSales (db : DB) (cid : Nat) : ℚ :=
  ((db.orders.filter (fun o => o.customer_id == some cid)).map Order.total).sum

/-- Models `totalPaid` of `GET /api/customers/:id/account`. -/
def accountTotalPaid (db : DB) (cid : Nat) : ℚ :=
  ((db.payments.filter
      (fun p => p.customer_id == some cid && p.status == "completed")).map
    Payment.amount).sum

/-- Models `calculatedBalance` of `GET /api/customers/:id/account`. -/
def customerAccountBalance (db : DB) (cid : Nat) : ℚ :=
  accountTotalSales db cid - accountTotalPaid db cid

/-- The balance the spec describes: order totals excluding cancelled
(and soft-deleted) orders, minus completed payments.
Modelled from the spec for comparison with the code's derived balance. -/
def specCustomerBalance (db : DB) (cid : Nat) : ℚ :=
  ((db.orders.filter
      (fun o => o.customer_id == some cid && !(o.status == OrderStatus.cancelled))).map
    Order.total).sum - customerTotalPaid db cid

/-- Models `PATCH /api/customers/:id/balance`: the only writer of the stored
`customers.balance` column. -/
def adjustBalance (db : DB) (cid : Nat) (amount : ℚ) (operation : String) :
    Except PayError DB :=
  match db.customers.find? (fun c => c.id == cid) with
  | none => .error .orderNotFound
  | some c =>
    let newBalance :=
      if operation == "add" then c.balance + amount
      else if operation == "subtract" then c.balance - amount
      else amount
    .ok { db with
          customers := db.customers.map
            (fun c' => if c'.id == cid then { c' with balance := newBalance } else c') }

/-- Commit-or-rollback wrapper for the balance adjustment. -/
def runAdjustBalance (db : DB) (cid : Nat) (amount : ℚ) (operation : String) : DB :=
  match adjustBalance db cid amount operation with
  | .ok db' => db'
  | .error _ => db

/-! ## Register closure (`GET /api/register/summary`, `POST /api/register/close`)

The summary endpoint queries the day's non-cancelled sales items joined per
supplier, the day's completed payments, and the positive-stock inventory,
and computes `total_sales` as the plain sum of the sales rows' totals.  The
close endpoint performs no queries of its own: it takes `total_sales` and
the three breakdowns from the request body, wraps the breakdowns into a
composite `{sales, payments, inventory}` object, and inserts exactly one
`register_closures` row. -/

/-- One raw row of the summary's sales query: an `order_items` row joined to
its non-cancelled order of the requested date, left-joined to its supplier. -/
structure SaleRow where
  supplier_name : Option String
  product_name : String
  quantity : ℚ
  unit_price : ℚ
  total : ℚ
  sale_type : String
  deriving Repr, DecidableEq

/-- The sales-query join of the summary endpoint. -/
def daySalesRows (db : DB) (date : Nat) : List SaleRow :=
  (db.order_items.filterMap (fun oi =>
    match db.orders.find? (fun o => o.id == oi.order_id) with
    | none => none
    | some o =>
      if o.created_at == date && !(o.status == OrderStatus.cancelled) then
        some { supplier_name :=
                 (oi.supplier_id.bind (fun sid =>
                   db.suppliers.find? (fun s => s.id == sid))).map Supplier.name,
               product_name := oi.product_name, quantity := oi.quantity,
               unit_price := oi.unit_price, total := oi.total,
               sale_type := o.payment_method }
      else none))

/-- Models `totalSales` of the summary endpoint: the plain sum over the sales rows. -/
def daySalesTotal (db : DB) (date : Nat) : ℚ :=
  ((daySalesRows db date).map SaleRow.total).sum

/-- One step of the JS `reduce` that groups sales rows by supplier name. -/
def addSaleRow (gs : List SupplierSalesGroup) (r : SaleRow) : List SupplierSalesGroup :=
  let name := r.supplier_name.getD "Sin Proveedor"
  let line : SaleLine :=
    { product_name := r.product_name, quantity := r.quantity,
      unit_price := r.unit_price, sale_type := r.sale_type, total := r.total }
  if gs.any (fun g => g.supplier_name == name) then
    gs.map (fun g =>
      if g.supplier_name == name then
        { g with items := g.items ++ [line], supplier_total := g.supplier_total + r.total }
      else g)
  else gs ++ [{ supplier_name := name, items := [line], supplier_total := r.total }]

/-- The grouped `details` value of the summary endpoint. -/
def groupSales (rows : List SaleRow) : List SupplierSalesGroup :=
  rows.foldl addSaleRow []

/-- The summary's payments query: the day's completed payments. -/
def dayPayments (db : DB) (date : Nat) : List PaymentRow :=
  (db.payments.filter (fun p => p.payment_date == date && p.status == "completed")).map
    (fun p => { payment_id := p.id, payment_date := p.payment_date,
                amount := p.amount, payment_method := p.payment_method,
                order_id := p.order_id })

/-- One step of the JS `reduce` that groups positive-stock products by
resolved supplier name. -/
def addInvLine (gs : List InventoryGroup) (r : String × InventoryLine) :
    List InventoryGroup :=
  if gs.any (fun g => g.supplier_name == r.1) then
    gs.map (fun g =>
      if g.supplier_name == r.1 then
        { g with items := g.items ++ [r.2], total_items := g.total_items + r.2.stock }
      else g)
  else gs ++ [{ supplier_name := r.1, items := [r.2], total_items := r.2.stock }]

/-- The summary's inventory query and grouping: products with `stock > 0`,
left-joined to suppliers, grouped by supplier name. -/
def dayInventory (db : DB) : List InventoryGroup :=
  ((db.products.filter (fun p => decide (0 < p.stock))).map (fun p =>
    ((p.supplier.bind (fun sid => db.suppliers.find? (fun s => s.id == sid))).map
        Supplier.name).getD "Sin Proveedor"
      |> (fun nm => (nm, ({ product_name := p.name, stock := truncQ p.stock } : InventoryLine))))).foldl
    addInvLine []

/-- The response body of `GET /api/register/summary`. -/
structure RegisterSummary where
  date : Nat
  total_sales : ℚ
  total_collected : ℚ
  details : List SupplierSalesGroup
  payment_details : List PaymentRow
  inventory_details : List InventoryGroup
  deriving Repr, DecidableEq

/-- Models `GET /api/register/summary`. -/
def registerSummary (db : DB) (date : Nat) : RegisterSummary :=
  { date := date,
    total_sales := daySalesTotal db date,
    total_collected := ((dayPayments db date).map PaymentRow.amount).sum,
    details := groupSales (daySalesRows db date),
    payment_details := dayPayments db date,
    inventory_details := dayInventory db }

/-- The request body of `POST /api/register/close`: supplied by the client,
not derived by the handler. -/
structure CloseReq where
  total_sales : ℚ
  details : List SupplierSalesGroup
  payment_details : List PaymentRow
  inventory_details : List InventoryGroup
  notes : Option String
  user_id : Option Nat
  deriving Repr, DecidableEq

/-- Models `POST /api/register/close`: wraps the body's breakdowns into the
composite details object and inserts one closure row. -/
def closeRegister (db : DB) (r : CloseReq) : DB :=
  { db with
    register_closures := db.register_closures ++
      [{ total_sales := r.total_sales,
         details := { sales := r.details, payments := r.payment_details,
                      inventory := r.inventory_details },
         notes := r.notes, user_id := r.user_id }] }

/-- The close request a client forms from a summary response (the intended
flow the spec describes). -/
def closeReqOfSummary (s : RegisterSummary) (notes : Option String)
    (uid : Option Nat) : CloseReq :=
  { total_sales := s.total_sales, details := s.details,
    payment_details := s.payment_details,
    inventory_details := s.inventory_details, notes := notes, user_id := uid }

/-! ## Concrete fixtures used to witness the theorems -/

/-- An empty store. -/
def emptyDB : DB :=
  { products := [], orders := [], order_items := [], stock_movements := [],
    payments := [], invoices := [], purchase_orders := [],
    purchase_order_items := [], customers := [], suppliers := [],
    register_closures := [], next_order_id := 10, next_payment_id := 20,
    today := 7 }

/-- A catalog with two products. -/
def exDB : DB :=
  { emptyDB with
    products := [{ id := 1, name := "Apple", price := 5, stock := 100, supplier := none },
                 { id := 2, name := "Pear", price := 3, stock := 4, supplier := none }] }

/-- A satisfiable one-line order request: 10 Apples at 5. -/
def exReqOk : OrderReq :=
  { customer_id := none,
    items := [{ product_id := 1, quantity := 10, unit_price := some 5, supplier_id := none }],
    payment_method := "cash", discount_percentage := 0 }

/-- A request shorting product 2 (4 in stock, 10 requested). -/
def exReqShort : OrderReq :=
  { customer_id := none,
    items := [{ product_id := 2, quantity := 10, unit_price := some 3, supplier_id := none }],
    payment_method := "cash", discount_percentage := 0 }

/-- Two line items for the same product, each within the pre-order stock of
10 but summing to 12. -/
def exReqDup : OrderReq :=
  { customer_id := none,
    items := [{ product_id := 1, quantity := 6, unit_price := some 5, supplier_id := none },
              { product_id := 1, quantity := 6, unit_price := some 5, supplier_id := none }],
    payment_method := "cash", discount_percentage := 0 }

/-- A store whose single product has stock 10, for the duplicate-item
counterexample. -/
def exDBDup : DB :=
  { emptyDB with
    products := [{ id := 1, name := "Apple", price := 5, stock := 10, supplier := none }] }

/-- An order sitting in the `processing` state. -/
def exOrderProcessing : Order :=
  { id := 1, customer_id := none, subtotal := 10, tax_amount := 0,
    discount_amount := 0, discount_percentage := 0, total := 10,
    status := .processing, payment_status := .pending,
    payment_method := "cash", created_at := 0 }

/-- A store with one order in `processing`. -/
def exDB6 : DB := { emptyDB with orders := [exOrderProcessing] }

/-- A store with one order in `cancelled`. -/
def exDBCancelled : DB :=
  { emptyDB with orders := [{ exOrderProcessing with status := .cancelled }] }

/-- Modelled from the spec: the order state machine
pending → processing → completed, or pending/processing → cancelled. -/
def specOrderTransition (a b : OrderStatus) : Bool :=
  match a, b with
  | .pending, .processing => true
  | .processing, .completed => true
  | .pending, .cancelled => true
  | .processing, .cancelled => true
  | _, _ => false

/-- The intended stock invariant: every product row has nonnegative stock. -/
def stockNonneg (db : DB) : Prop := ∀ p ∈ db.products, 0 ≤ p.stock

instance (db : DB) : Decidable (stockNonneg db) :=
  inferInstanceAs (Decidable (∀ p ∈ db.products, 0 ≤ p.stock))

/-- The fields of a purchase-order item the receive loop never changes. -/
def poTri (r : PurchaseOrderItem) : Nat × Nat × ℚ :=
  (r.purchase_order_id, r.product_id, r.quantity)

/-- Ordered quantity a purchase-order-item table carries for one product of
one purchase order. -/
def poSum (rows : List PurchaseOrderItem) (poid pid : Nat) : ℚ :=
  sumPOQty (rows.filter (fun it => it.purchase_order_id == poid)) pid

/-- A store with one pending purchase order of 5 Apples, product stock 0. -/
def exPODB : DB :=
  { emptyDB with
    products := [{ id := 1, name := "Apple", price := 5, stock := 0, supplier := none }],
    purchase_orders := [{ id := 1, supplier_id := none, status := .pending }],
    purchase_order_items :=
      [{ purchase_order_id := 1, product_id := 1, quantity := 5, received_quantity := 0 }] }

/-- An order of total 100 awaiting payment. -/
def exOrderForPay : Order :=
  { id := 1, customer_id := some 1, subtotal := 100, tax_amount := 0,
    discount_amount := 0, discount_percentage := 0, total := 100,
    status := .pending, payment_status := .pending, payment_method := "credit",
    created_at := 7 }

/-- An invoice of total 100 awaiting payment. -/
def exInvoice : Invoice :=
  { id := 1, customer_id := some 1, total := 100, paid_amount := 0, status := "pending" }

/-- A store with the order and the invoice above and no payments yet. -/
def exPayDB : DB := { emptyDB with orders := [exOrderForPay], invoices := [exInvoice] }

/-- A payment request supplying both an order id and an invoice id. -/
def exPayReqBoth : PayReq :=
  { order_id := some 1, invoice_id := some 1, customer_id := none,
    amount := 50, payment_method := some "cash" }

/-- A payment request against the order only. -/
def exPayReqOrder : PayReq :=
  { order_id := some 1, invoice_id := none, customer_id := none,
    amount := 50, payment_method := some "cash" }

/-- A payment request whose amount exceeds the order's total. -/
def exPayReqTooMuch : PayReq :=
  { order_id := some 1, invoice_id := none, customer_id := none,
    amount := 150, payment_method := some "cash" }

/-- A completed payment of 50 against order 1. -/
def exPayment : Payment :=
  { id := 1, order_id := some 1, invoice_id := none, customer_id := some 1,
    amount := 50, payment_method := "cash", status := "completed", payment_date := 7 }

/-- The store `exPayDB` with one completed payment recorded. -/
def exPayDB2 : DB := { exPayDB with payments := [exPayment] }

/-- A payment request supplying neither an order id nor an invoice id. -/
def exPayReqNone : PayReq :=
  { order_id := none, invoice_id := none, customer_id := none,
    amount := 50, payment_method := some "cash" }

/-- A payment update changing only the amount. -/
def exPayUpd : PayUpdate :=
  { amount := some 30, payment_method := none, status := none }

/-- A payment request against the invoice only. -/
def exPayReqInv : PayReq :=
  { order_id := none, invoice_id := some 1, customer_id := none,
    amount := 50, payment_method := some "cash" }

/-- A store whose customer 1 has one cancelled order of total 100, no
payments, and a stored balance column of 42. -/
def exDB7 : DB :=
  { emptyDB with
    customers := [{ id := 1, name := "Ana", balance := 42 }],
    orders := [{ exOrderForPay with status := .cancelled }] }

/-- A close-register request whose client-supplied total does not match any
computed figure. -/
def exCloseReq : CloseReq :=
  { total_sales := 999, details := [], payment_details := [],
    inventory_details := [], notes := none, user_id := none }

/-- The store `exPODB` after its purchase order has been received once. -/
def exPODBAfter : DB :=
  { exPODB with
    products := [{ id := 1, name := "Apple", price := 5, stock := 5, supplier := none }],
    purchase_orders := [{ id := 1, supplier_id := none, status := .received }],
    purchase_order_items :=
      [{ purchase_order_id := 1, product_id := 1, quantity := 5, received_quantity := 5 }],
    stock_movements :=
      [{ product_id := 1, movement_type := "in", quantity := 5,
         reference_type := "purchase", reference_id := 1 }] }

/-! ## Effect lemmas for the three per-item write loops -/

/-- The tables none of the three stock loops write. -/
structure SharedTablesEq (db db' : DB) : Prop where
  payments_eq : db'.payments = db.payments
  invoices_eq : db'.invoices = db.invoices
  purchase_orders_eq : db'.purchase_orders = db.purchase_orders
  customers_eq : db'.customers = db.customers
  suppliers_eq : db'.suppliers = db.suppliers
  closures_eq : db'.register_closures = db.register_closures
  next_order_eq : db'.next_order_id = db.next_order_id
  next_payment_eq : db'.next_payment_id = db.next_payment_id
  today_eq : db'.today = db.today

theorem getStock_cons (p : Product) (ps : List Product) (pid : Nat) :
    getStock (p :: ps) pid = if p.id = pid then some p.stock else getStock ps pid := by
  by_cases h : p.id = pid
  · simp [getStock, List.find?_cons, h]
  · simp [getStock, List.find?_cons, h]

theorem setStock_cons (p : Product) (ps : List Product) (pid : Nat) (s : ℚ) :
    setStock (p :: ps) pid s =
      (if p.id = pid then { p with stock := s } else p) :: setStock ps pid s := by
  by_cases h : p.id = pid <;> simp [setStock, h]

theorem getStock_setStock (ps : List Product) (pid pid' : Nat) (s : ℚ) :
    getStock (setStock ps pid s) pid' =
      if pid' = pid then (getStock ps pid').map (fun _ => s)
      else getStock ps pid' := by
  induction ps with
  | nil => by_cases h : pid' = pid <;> simp [getStock, setStock, h]
  | cons p ps ih =>
    rw [setStock_cons]
    by_cases hp : p.id = pid
    · by_cases hq : pid' = pid
      · subst hq
        simp [getStock_cons, hp, ih]
      · have h1 : pid ≠ pid' := fun hc => hq hc.symm
        simp [getStock_cons, hp, h1, hq, ih]
    · by_cases hq : p.id = pid'
      · have h2 : pid' ≠ pid := fun hc => hp (hq.trans hc)
        simp [getStock_cons, hp, hq, h2]
      · simp [getStock_cons, hp, hq, ih]

theorem getStock_setStock_self (ps : List Product) (pid : Nat) (s : ℚ) :
    getStock (setStock ps pid s) pid = (getStock ps pid).map (fun _ => s) := by
  simp [getStock_setStock]

theorem getStock_setStock_other (ps : List Product) (pid pid' : Nat) (s : ℚ)
    (h : pid' ≠ pid) :
    getStock (setStock ps pid s) pid' = getStock ps pid' := by
  simp [getStock_setStock, h]

theorem SharedTablesEq.refl (db : DB) : SharedTablesEq db db :=
  ⟨rfl, rfl, rfl, rfl, rfl, rfl, rfl, rfl, rfl⟩

theorem SharedTablesEq.trans {a b c : DB} (h1 : SharedTablesEq a b)
    (h2 : SharedTablesEq b c) : SharedTablesEq a c := by
  exact ⟨h2.1.trans h1.1, h2.2.trans h1.2, h2.3.trans h1.3, h2.4.trans h1.4,
         h2.5.trans h1.5, h2.6.trans h1.6, h2.7.trans h1.7, h2.8.trans h1.8,
         h2.9.trans h1.9⟩

theorem sumQty_nil (pid : Nat) : sumQty [] pid = 0 := rfl

theorem sumQty_cons (it : ProcItem) (rest : List ProcItem) (pid : Nat) :
    sumQty (it :: rest) pid =
      (if it.product_id = pid then it.quantity else 0) + sumQty rest pid := by
  by_cases h : it.product_id = pid <;> simp [sumQty, List.filter_cons, h]

theorem sumReqQty_cons (it : ReqItem) (rest : List ReqItem) (pid : Nat) :
    sumReqQty (it :: rest) pid =
      (if it.product_id = pid then it.quantity else 0) + sumReqQty rest pid := by
  by_cases h : it.product_id = pid <;> simp [sumReqQty, List.filter_cons, h]

/-- What a successful run of the order-placement write loop did. -/
theorem applyItems_ok (oid : Nat) (pis : List ProcItem) :
    ∀ db db', applyItems oid pis db = .ok db' →
      db'.orders = db.orders ∧
      db'.order_items = db.order_items ++ pis.map (toOrderItem oid) ∧
      db'.stock_movements = db.stock_movements ++ pis.map (toSaleMovement oid) ∧
      db'.purchase_order_items = db.purchase_order_items ∧
      (∀ pid, getStock db'.products pid =
        (getStock db.products pid).map (fun s => s - sumQty pis pid)) ∧
      SharedTablesEq db db' := by
  induction pis with
  | nil =>
    intro db db' h
    simp only [applyItems] at h
    cases h
    refine ⟨rfl, by simp, by simp, rfl, ?_, .refl db⟩
    intro pid
    cases getStock db.products pid <;> simp [sumQty_nil]
  | cons it rest ih =>
    intro db db' h
    simp only [applyItems] at h
    cases hg : getStock db.products it.product_id with
    | none => rw [hg] at h; exact absurd h (by simp)
    | some s =>
      rw [hg] at h
      obtain ⟨h1, h2, h3, h4, h5, h6⟩ := ih _ _ h
      refine ⟨h1, ?_, ?_, h4,
        ?_, ⟨h6.1, h6.2, h6.3, h6.4, h6.5, h6.6, h6.7, h6.8, h6.9⟩⟩
      · rw [h2]; simp
      · rw [h3]; simp
      · intro pid
        rw [h5 pid, getStock_setStock, sumQty_cons]
        by_cases hp : pid = it.product_id
        · subst hp
          rw [hg]
          simp [sub_sub]
        · have hp' : it.product_id ≠ pid := fun hc => hp hc.symm
          simp only [if_neg hp, if_neg hp']
          cases getStock db.products pid <;> simp

/-- The write loop succeeds when every referenced product exists. -/
theorem applyItems_isOk (oid : Nat) (pis : List ProcItem) :
    ∀ db, (∀ it ∈ pis, (getStock db.products it.product_id).isSome) →
      ∃ db', applyItems oid pis db = .ok db' := by
  induction pis with
  | nil => intro db _; exact ⟨db, rfl⟩
  | cons it rest ih =>
    intro db hall
    have hhd : (getStock db.products it.product_id).isSome :=
      hall it (List.mem_cons_self it rest)
    cases hg : getStock db.products it.product_id with
    | none => rw [hg] at hhd; exact absurd hhd (by simp)
    | some s =>
      obtain ⟨db', hdb'⟩ := ih
        { db with
          order_items := db.order_items ++ [toOrderItem oid it],
          products := setStock db.products it.product_id (s - it.quantity),
          stock_movements := db.stock_movements ++ [toSaleMovement oid it] }
        (by
          intro it' hmem
          show (getStock (setStock db.products it.product_id (s - it.quantity))
            it'.product_id).isSome
          rw [getStock_setStock]
          by_cases hp : it'.product_id = it.product_id
          · rw [if_pos hp, hp, hg]; simp
          · rw [if_neg hp]; exact hall it' (List.mem_cons_of_mem it hmem))
      exact ⟨db', by simp only [applyItems]; rw [hg]; exact hdb'⟩

theorem sumItemQty_cons (it : OrderItem) (rest : List OrderItem) (pid : Nat) :
    sumItemQty (it :: rest) pid =
      (if it.product_id = pid then it.quantity else 0) + sumItemQty rest pid := by
  by_cases h : it.product_id = pid <;> simp [sumItemQty, List.filter_cons, h]

/-- What a successful run of the cancellation stock-restoration loop did. -/
theorem restoreItems_ok (oid : Nat) (items : List OrderItem) :
    ∀ db db', restoreItems oid items db = .ok db' →
      db'.orders = db.orders ∧
      db'.order_items = db.order_items ∧
      db'.stock_movements = db.stock_movements ++ items.map (toReturnMovement oid) ∧
      db'.purchase_order_items = db.purchase_order_items ∧
      (∀ pid, getStock db'.products pid =
        (getStock db.products pid).map (fun s => s + sumItemQty items pid)) ∧
      SharedTablesEq db db' := by
  induction items with
  | nil =>
    intro db db' h
    simp only [restoreItems] at h
    cases h
    refine ⟨rfl, rfl, by simp, rfl, ?_, .refl db⟩
    intro pid
    cases getStock db.products pid <;> simp [sumItemQty]
  | cons it rest ih =>
    intro db db' h
    simp only [restoreItems] at h
    cases hg : getStock db.products it.product_id with
    | none => rw [hg] at h; exact absurd h (by simp)
    | some s =>
      rw [hg] at h
      obtain ⟨h1, h2, h3, h4, h5, h6⟩ := ih _ _ h
      refine ⟨h1, h2, ?_, h4,
        ?_, ⟨h6.1, h6.2, h6.3, h6.4, h6.5, h6.6, h6.7, h6.8, h6.9⟩⟩
      · rw [h3]; simp
      · intro pid
        rw [h5 pid, getStock_setStock, sumItemQty_cons]
        by_cases hp : pid = it.product_id
        · subst hp
          rw [hg]
          simp [add_assoc]
        · have hp' : it.product_id ≠ pid := fun hc => hp hc.symm
          simp only [if_neg hp, if_neg hp']
          cases getStock db.products pid <;> simp

/-- The restoration loop succeeds when every referenced product exists. -/
theorem restoreItems_isOk (oid : Nat) (items : List OrderItem) :
    ∀ db, (∀ it ∈ items, (getStock db.products it.product_id).isSome) →
      ∃ db', restoreItems oid items db = .ok db' := by
  induction items with
  | nil => intro db _; exact ⟨db, rfl⟩
  | cons it rest ih =>
    intro db hall
    have hhd : (getStock db.products it.product_id).isSome :=
      hall it (List.mem_cons_self it rest)
    cases hg : getStock db.products it.product_id with
    | none => rw [hg] at hhd; exact absurd hhd (by simp)
    | some s =>
      obtain ⟨db', hdb'⟩ := ih
        { db with
          products := setStock db.products it.product_id (s + it.quantity),
          stock_movements := db.stock_movements ++ [toReturnMovement oid it] }
        (by
          intro it' hmem
          show (getStock (setStock db.products it.product_id (s + it.quantity))
            it'.product_id).isSome
          rw [getStock_setStock]
          by_cases hp : it'.product_id = it.product_id
          · rw [if_pos hp, hp, hg]; simp
          · rw [if_neg hp]; exact hall it' (List.mem_cons_of_mem it hmem))
      exact ⟨db', by simp only [restoreItems]; rw [hg]; exact hdb'⟩

theorem sumPOQty_cons (it : PurchaseOrderItem) (rest : List PurchaseOrderItem)
    (pid : Nat) :
    sumPOQty (it :: rest) pid =
      (if it.product_id = pid then it.quantity else 0) + sumPOQty rest pid := by
  by_cases h : it.product_id = pid <;> simp [sumPOQty, List.filter_cons, h]

/-- What a successful run of the purchase-order receive loop did (the
`purchase_order_items` table is rewritten by `markReceived`, so only the
tables the claims need are tracked). -/
theorem receiveItems_ok (poid : Nat) (items : List PurchaseOrderItem) :
    ∀ db db', receiveItems poid items db = .ok db' →
      db'.orders = db.orders ∧
      db'.order_items = db.order_items ∧
      db'.stock_movements = db.stock_movements ++ items.map (toPurchaseMovement poid) ∧
      (∀ pid, getStock db'.products pid =
        (getStock db.products pid).map (fun s => s + sumPOQty items pid)) ∧
      SharedTablesEq db db' := by
  induction items with
  | nil =>
    intro db db' h
    simp only [receiveItems] at h
    cases h
    refine ⟨rfl, rfl, by simp, ?_, .refl db⟩
    intro pid
    cases getStock db.products pid <;> simp [sumPOQty]
  | cons it rest ih =>
    intro db db' h
    simp only [receiveItems] at h
    cases hg : getStock db.products it.product_id with
    | none => rw [hg] at h; exact absurd h (by simp)
    | some s =>
      rw [hg] at h
      obtain ⟨h1, h2, h3, h4, h5⟩ := ih _ _ h
      refine ⟨h1, h2, ?_,
        ?_, ⟨h5.1, h5.2, h5.3, h5.4, h5.5, h5.6, h5.7, h5.8, h5.9⟩⟩
      · rw [h3]; simp
      · intro pid
        rw [h4 pid, getStock_setStock, sumPOQty_cons]
        by_cases hp : pid = it.product_id
        · subst hp
          rw [hg]
          simp [add_assoc]
        · have hp' : it.product_id ≠ pid := fun hc => hp hc.symm
          simp only [if_neg hp, if_neg hp']
          cases getStock db.products pid <;> simp

/-! ## Inversion lemmas for the order-placement check phase -/

/-- If every item passes the existence-and-stock check, the check phase
succeeds, and the processed items carry the request's product ids and
quantities with `total = quantity * unit_price` line totals. -/
theorem processItems_ok_of (products : List Product) :
    ∀ items : List ReqItem, (∀ it ∈ items, itemOk products it = true) →
      ∃ pis, processItems products items = .ok pis ∧
        pis.map ProcItem.product_id = items.map ReqItem.product_id ∧
        pis.map ProcItem.quantity = items.map ReqItem.quantity ∧
        ∀ pit ∈ pis, pit.total = pit.quantity * pit.unit_price := by
  intro items
  induction items with
  | nil => intro _; exact ⟨[], rfl, rfl, rfl, by intro pit h; cases h⟩
  | cons it rest ih =>
    intro hall
    have hhd := hall it (List.mem_cons_self it rest)
    unfold itemOk at hhd
    cases hf : products.find? (fun p => p.id == it.product_id) with
    | none => rw [hf] at hhd; exact absurd hhd (by simp)
    | some p =>
      rw [hf] at hhd
      have hle : it.quantity ≤ p.stock := by simpa using hhd
      have hnlt : ¬ p.stock < it.quantity := not_lt.mpr hle
      obtain ⟨pis, h1, h2, h3, h4⟩ := ih (fun it' hm => hall it' (List.mem_cons_of_mem it hm))
      refine ⟨{ product_id := it.product_id, product_name := p.name,
                supplier_id := it.supplier_id, quantity := it.quantity,
                unit_price := resolvePrice it.unit_price p.price,
                total := it.quantity * resolvePrice it.unit_price p.price } :: pis,
              ?_, ?_, ?_, ?_⟩
      · simp only [processItems]
        rw [hf]
        simp [hnlt, h1]
      · simp [h2]
      · simp [h3]
      · intro pit hm
        rcases List.mem_cons.mp hm with hm | hm
        · subst hm; rfl
        · exact h4 pit hm

/-- What a successful check phase guarantees about each processed item:
its product exists and had stock at least the quantity. -/
theorem processItems_ok_inv (products : List Product) :
    ∀ (items : List ReqItem) (pis : List ProcItem),
      processItems products items = .ok pis →
      pis.map ProcItem.product_id = items.map ReqItem.product_id ∧
      pis.map ProcItem.quantity = items.map ReqItem.quantity ∧
      ∀ pit ∈ pis,
        (∃ p, products.find? (fun x => x.id == pit.product_id) = some p ∧
          pit.quantity ≤ p.stock) ∧
        pit.total = pit.quantity * pit.unit_price := by
  intro items
  induction items with
  | nil =>
    intro pis h
    simp only [processItems] at h
    cases h
    exact ⟨rfl, rfl, by intro pit hm; cases hm⟩
  | cons it rest ih =>
    intro pis h
    simp only [processItems] at h
    cases hf : products.find? (fun p => p.id == it.product_id) with
    | none => rw [hf] at h; exact absurd h (by simp)
    | some p =>
      rw [hf] at h
      dsimp only at h
      by_cases hlt : p.stock < it.quantity
      · rw [if_pos hlt] at h; exact absurd h (by simp)
      · rw [if_neg hlt] at h
        cases hr : processItems products rest with
        | error e => rw [hr] at h; exact absurd h (by simp)
        | ok pis' =>
          rw [hr] at h
          cases h
          obtain ⟨h2, h3, h4⟩ := ih pis' hr
          refine ⟨by simp [h2], by simp [h3], ?_⟩
          intro pit hm
          rcases List.mem_cons.mp hm with hm | hm
          · subst hm
            exact ⟨⟨p, hf, not_lt.mp hlt⟩, rfl⟩
          · exact h4 pit hm

/-- If every referenced product exists but some item's quantity exceeds its
product's stock, the check phase fails with an insufficient-stock error
naming a shorted product and both quantities. -/
theorem processItems_short (products : List Product) :
    ∀ items : List ReqItem, (∀ it ∈ items, itemFound products it = true) →
      (∃ it ∈ items, itemShort products it = true) →
      ∃ it ∈ items, ∃ p,
        products.find? (fun x => x.id == it.product_id) = some p ∧
        p.stock < it.quantity ∧
        processItems products items = .error (.insufficientStock p.name p.stock it.quantity) := by
  intro items
  induction items with
  | nil => rintro _ ⟨it, hm, _⟩; cases hm
  | cons it rest ih =>
    rintro hall hbad
    have hhd := hall it (List.mem_cons_self it rest)
    unfold itemFound at hhd
    cases hf : products.find? (fun p => p.id == it.product_id) with
    | none => rw [hf] at hhd; exact absurd hhd (by simp)
    | some p =>
      by_cases hlt : p.stock < it.quantity
      · refine ⟨it, List.mem_cons_self it rest, p, hf, hlt, ?_⟩
        simp only [processItems]
        rw [hf]
        simp [hlt]
      · obtain ⟨itb, hmb, hsb⟩ := hbad
        rcases List.mem_cons.mp hmb with hins | hins
        · subst hins
          unfold itemShort at hsb
          rw [hf] at hsb
          exact absurd (by simpa using hsb) hlt
        · obtain ⟨it', hm', p', hf', hlt', herr⟩ :=
            ih (fun x hm => hall x (List.mem_cons_of_mem it hm)) ⟨itb, hins, hsb⟩
          refine ⟨it', List.mem_cons_of_mem it hm', p', hf', hlt', ?_⟩
          simp only [processItems]
          rw [hf]
          simp [hlt, herr]

/-- Pointwise-equal product ids and quantities give equal per-product
quantity sums. -/
theorem sumQty_eq_sumReqQty :
    ∀ (items : List ReqItem) (pis : List ProcItem),
      pis.map ProcItem.product_id = items.map ReqItem.product_id →
      pis.map ProcItem.quantity = items.map ReqItem.quantity →
      ∀ pid, sumQty pis pid = sumReqQty items pid := by
  intro items
  induction items with
  | nil =>
    intro pis h1 _ pid
    have : pis = [] := by
      cases pis with
      | nil => rfl
      | cons a l => simp at h1
    subst this
    rfl
  | cons it rest ih =>
    intro pis h1 h2 pid
    cases pis with
    | nil => simp at h1
    | cons pit pis' =>
      simp only [List.map_cons, List.cons.injEq] at h1 h2
      rw [sumQty_cons, sumReqQty_cons, h1.1, h2.1, ih pis' h1.2 h2.2 pid]

/-- The receive loop succeeds when every referenced product exists. -/
theorem receiveItems_isOk (poid : Nat) (items : List PurchaseOrderItem) :
    ∀ db, (∀ it ∈ items, (getStock db.products it.product_id).isSome) →
      ∃ db', receiveItems poid items db = .ok db' := by
  induction items with
  | nil => intro db _; exact ⟨db, rfl⟩
  | cons it rest ih =>
    intro db hall
    have hhd : (getStock db.products it.product_id).isSome :=
      hall it (List.mem_cons_self it rest)
    cases hg : getStock db.products it.product_id with
    | none => rw [hg] at hhd; exact absurd hhd (by simp)
    | some s =>
      obtain ⟨db', hdb'⟩ := ih
        { db with
          products := setStock db.products it.product_id (s + it.quantity),
          purchase_order_items := markReceived db.purchase_order_items poid it.product_id,
          stock_movements := db.stock_movements ++ [toPurchaseMovement poid it] }
        (by
          intro it' hmem
          show (getStock (setStock db.products it.product_id (s + it.quantity))
            it'.product_id).isSome
          rw [getStock_setStock]
          by_cases hp : it'.product_id = it.product_id
          · rw [if_pos hp, hp, hg]; simp
          · rw [if_neg hp]; exact hall it' (List.mem_cons_of_mem it hmem))
      exact ⟨db', by simp only [receiveItems]; rw [hg]; exact hdb'⟩

/-! ## Order placement: top-level lemmas -/

/-- What a successful order placement did to the store. -/
theorem createOrder_ok_inv (db : DB) (req : OrderReq) (db' : DB)
    (h : createOrder db req = .ok db') :
    ∃ pis,
      processItems db.products req.items = .ok pis ∧
      db'.orders = db.orders ++ [newOrderOf db req pis] ∧
      db'.order_items = db.order_items ++ pis.map (toOrderItem db.next_order_id) ∧
      db'.stock_movements = db.stock_movements ++ pis.map (toSaleMovement db.next_order_id) ∧
      (∀ pid, getStock db'.products pid =
        (getStock db.products pid).map (fun s => s - sumQty pis pid)) ∧
      db'.payments = db.payments ∧
      db'.invoices = db.invoices ∧
      db'.purchase_orders = db.purchase_orders ∧
      db'.purchase_order_items = db.purchase_order_items ∧
      db'.customers = db.customers ∧
      db'.suppliers = db.suppliers ∧
      db'.register_closures = db.register_closures ∧
      db'.next_order_id = db.next_order_id + 1 ∧
      db'.next_payment_id = db.next_payment_id ∧
      db'.today = db.today := by
  simp only [createOrder] at h
  cases hp : processItems db.products req.items with
  | error e => rw [hp] at h; exact absurd h (by simp)
  | ok pis =>
    rw [hp] at h
    obtain ⟨h1, h2, h3, h4, h5, h6⟩ := applyItems_ok db.next_order_id pis _ _ h
    exact ⟨pis, rfl, h1, h2, h3, h5, h6.1, h6.2, h6.3, h4, h6.4, h6.5, h6.6,
           h6.7, h6.8, h6.9⟩

/-- Order placement succeeds when every item passes the existence-and-stock
check. -/
theorem createOrder_isOk (db : DB) (req : OrderReq)
    (hok : ∀ it ∈ req.items, itemOk db.products it = true) :
    ∃ db', createOrder db req = .ok db' := by
  obtain ⟨pis, hp, hids, _, _⟩ := processItems_ok_of db.products req.items hok
  have hinv := processItems_ok_inv db.products req.items pis hp
  obtain ⟨db', hdb'⟩ := applyItems_isOk db.next_order_id pis
    { db with orders := db.orders ++ [newOrderOf db req pis],
              next_order_id := db.next_order_id + 1 }
    (by
      intro pit hm
      obtain ⟨⟨p, hf, _⟩, _⟩ := hinv.2.2 pit hm
      show (getStock db.products pit.product_id).isSome
      rw [getStock, hf]
      simp)
  exact ⟨db', by simp only [createOrder]; rw [hp]; exact hdb'⟩

/-! ## Claim C1 -/

/-- C1: if every item of an order-placement request references an existing
product with stock at least the requested quantity, the order commits and
each product's stock decreases by exactly the request's summed quantities
for that product, with one `out`/`sale` stock movement appended per line
item; if every product exists but some item's quantity exceeds its
product's stock, the whole operation fails with an insufficient-stock error
naming the product and both quantities, and no write persists. -/
theorem order_placement_stock_contract (db : DB) (req : OrderReq) :
    ((∀ it ∈ req.items, itemOk db.products it = true) →
      ∃ db', createOrder db req = .ok db' ∧ runCreateOrder db req = db' ∧
        (∀ pid, getStock db'.products pid =
          (getStock db.products pid).map (fun s => s - sumReqQty req.items pid)) ∧
        (∃ movs, db'.stock_movements = db.stock_movements ++ movs ∧
          movs.length = req.items.length ∧
          ∀ m ∈ movs, m.movement_type = "out" ∧ m.reference_type = "sale")) ∧
    ((∀ it ∈ req.items, itemFound db.products it = true) →
      (∃ it ∈ req.items, itemShort db.products it = true) →
      (∃ it ∈ req.items, ∃ p,
        db.products.find? (fun x => x.id == it.product_id) = some p ∧
        p.stock < it.quantity ∧
        createOrder db req = .error (.insufficientStock p.name p.stock it.quantity)) ∧
      runCreateOrder db req = db) := by
  constructor
  · intro hok
    obtain ⟨db', hdb'⟩ := createOrder_isOk db req hok
    obtain ⟨pis, hp, -, -, hsm, hst, -⟩ := createOrder_ok_inv db req db' hdb'
    obtain ⟨hids, hqtys, -⟩ := processItems_ok_inv db.products req.items pis hp
    have hsum := sumQty_eq_sumReqQty req.items pis hids hqtys
    refine ⟨db', hdb', ?_, ?_, ?_⟩
    · unfold runCreateOrder; rw [hdb']
    · intro pid
      rw [hst pid, hsum pid]
    · refine ⟨pis.map (toSaleMovement db.next_order_id), hsm, ?_, ?_⟩
      · rw [List.length_map]
        have := congrArg List.length hids
        simpa using this
      · intro m hm
        obtain ⟨pit, -, rfl⟩ := List.mem_map.mp hm
        exact ⟨rfl, rfl⟩
  · intro hfound hshort
    obtain ⟨it, hmem, p, hf, hlt, herr⟩ :=
      processItems_short db.products req.items hfound hshort
    have hco : createOrder db req = .error (.insufficientStock p.name p.stock it.quantity) := by
      simp only [createOrder]; rw [herr]
    exact ⟨⟨it, hmem, p, hf, hlt, hco⟩, by unfold runCreateOrder; rw [hco]⟩

/-- Witness for C1: both branches at concrete inputs. -/
theorem order_placement_stock_contract_witness :
    (∃ db', createOrder exDB exReqOk = .ok db') ∧
    (∃ it ∈ exReqShort.items, ∃ p,
      exDB.products.find? (fun x => x.id == it.product_id) = some p ∧
      p.stock < it.quantity ∧
      createOrder exDB exReqShort = .error (.insufficientStock p.name p.stock it.quantity)) := by
  constructor
  · obtain ⟨db', h, -, -, -⟩ := (order_placement_stock_contract exDB exReqOk).1 (by decide)
    exact ⟨db', h⟩
  · exact ((order_placement_stock_contract exDB exReqShort).2 (by decide) (by decide)).1

/-! ## Claim C3 -/

/-- C3: a successfully placed order's subtotal is the sum of its line
totals, each line total is `quantity * unit_price`, the discount is
`subtotal * discount_percentage / 100`, the tax is a fixed 0% multiplier on
the post-discount subtotal, and `total = subtotal - discount + tax`. -/
theorem order_totals_correct (db : DB) (req : OrderReq) (db' : DB)
    (h : createOrder db req = .ok db')
    (hfresh : ∀ it ∈ db.order_items, it.order_id ≠ db.next_order_id) :
    ∃ o, db'.orders = db.orders ++ [o] ∧
      o.subtotal =
        ((db'.order_items.filter (fun it => it.order_id == o.id)).map OrderItem.total).sum ∧
      (∀ it ∈ db'.order_items.filter (fun it => it.order_id == o.id),
        it.total = it.quantity * it.unit_price) ∧
      o.discount_amount = o.subtotal * o.discount_percentage / 100 ∧
      o.tax_amount = (o.subtotal - o.discount_amount) * 0 ∧
      o.tax_amount = 0 ∧
      o.total = o.subtotal - o.discount_amount + o.tax_amount := by
  obtain ⟨pis, hp, ho, hoi, -, -, -⟩ := createOrder_ok_inv db req db' h
  obtain ⟨-, -, hpt⟩ := processItems_ok_inv db.products req.items pis hp
  refine ⟨newOrderOf db req pis, ho, ?_, ?_, ?_, ?_, ?_, ?_⟩
  · have hid : (newOrderOf db req pis).id = db.next_order_id := rfl
    rw [hid, hoi, List.filter_append]
    have hold : db.order_items.filter (fun it => it.order_id == db.next_order_id) = [] := by
      rw [List.filter_eq_nil_iff]
      intro it hm
      simpa using hfresh it hm
    have hnew : (pis.map (toOrderItem db.next_order_id)).filter
        (fun it => it.order_id == db.next_order_id) = pis.map (toOrderItem db.next_order_id) := by
      rw [List.filter_eq_self]
      intro it hm
      obtain ⟨pit, -, rfl⟩ := List.mem_map.mp hm
      simp [toOrderItem]
    rw [hold, hnew]
    simp only [List.nil_append, List.map_map]
    have : (OrderItem.total ∘ toOrderItem db.next_order_id) = ProcItem.total := by
      funext pit; rfl
    rw [this]
    rfl
  · intro it hm
    have hm' : it ∈ db'.order_items := List.mem_of_mem_filter hm
    rw [hoi] at hm'
    rcases List.mem_append.mp hm' with hold | hnew
    · have hid : (newOrderOf db req pis).id = db.next_order_id := rfl
      have hfil := List.of_mem_filter hm
      rw [hid] at hfil
      have heq : it.order_id = db.next_order_id := by simpa using hfil
      exact absurd heq (hfresh it hold)
    · obtain ⟨pit, hpm, rfl⟩ := List.mem_map.mp hnew
      have := (hpt pit hpm).2
      simpa [toOrderItem] using this
  · rfl
  · rfl
  · simp [newOrderOf]
  · rfl

/-- Witness for C3 at a concrete placed order. -/
theorem order_totals_correct_witness :
    ∃ o, (runCreateOrder exDB exReqOk).orders = exDB.orders ++ [o] ∧
      o.total = o.subtotal - o.discount_amount + o.tax_amount := by
  obtain ⟨o, h1, -, -, -, -, -, h7⟩ :=
    order_totals_correct exDB exReqOk (runCreateOrder exDB exReqOk) rfl (by decide)
  exact ⟨o, h1, h7⟩

/-! ## Cancellation helper -/

/-- Quantities carried per product are preserved when processed items are
turned into order-item rows. -/
theorem sumItemQty_map_toOrderItem (oid : Nat) (pis : List ProcItem) (pid : Nat) :
    sumItemQty (pis.map (toOrderItem oid)) pid = sumQty pis pid := by
  induction pis with
  | nil => rfl
  | cons pit rest ih =>
    rw [List.map_cons, sumItemQty_cons, sumQty_cons, ih]
    rfl

/-- Effect of cancelling an order that is in a non-terminal state: the
status is written, each item's product stock is credited back, and one
`in`/`return` movement is appended per item. -/
theorem cancel_effect (db : DB) (oid : Nat) (o : Order)
    (hfind : db.orders.find? (fun x => x.id == oid) = some o)
    (hnc : o.status ≠ .cancelled) (hncp : o.status ≠ .completed)
    (hpres : ∀ it ∈ db.order_items.filter (fun it => it.order_id == oid),
      (getStock db.products it.product_id).isSome) :
    ∃ db', updateOrderStatus db oid .cancelled = .ok db' ∧
      db'.orders = setOrderStatus db.orders oid .cancelled ∧
      db'.order_items = db.order_items ∧
      db'.stock_movements = db.stock_movements ++
        (db.order_items.filter (fun it => it.order_id == oid)).map (toReturnMovement oid) ∧
      (∀ pid, getStock db'.products pid =
        (getStock db.products pid).map
          (fun s => s + sumItemQty (db.order_items.filter (fun it => it.order_id == oid)) pid)) := by
  obtain ⟨db1, hdb1⟩ :=
    restoreItems_isOk oid (db.order_items.filter (fun it => it.order_id == oid)) db hpres
  obtain ⟨h1, h2, h3, -, h5, -⟩ := restoreItems_ok oid _ db db1 hdb1
  refine ⟨{ db1 with orders := setOrderStatus db1.orders oid .cancelled }, ?_, ?_, h2, h3, ?_⟩
  · simp only [updateOrderStatus]
    rw [hfind]
    dsimp only
    rw [if_neg (by rintro ⟨-, hc⟩; exact hc rfl)]
    rw [if_neg (by rintro ⟨hc, -⟩; exact hncp hc)]
    rw [if_pos ⟨by trivial, hnc⟩, hdb1]
  · show setOrderStatus db1.orders oid .cancelled = setOrderStatus db.orders oid .cancelled
    rw [h1]
  · intro pid
    exact h5 pid

/-! ## Claim C4 -/

/-- C4: cancelling an order from a non-terminal status credits each order
item's quantity back to its product and appends one `in`/`return` movement
per item, so placing an order and then cancelling it leaves every product's
stock unchanged. -/
theorem cancel_round_trip (db : DB) :
    (∀ (oid : Nat) (o : Order),
      db.orders.find? (fun x => x.id == oid) = some o →
      o.status ≠ .cancelled → o.status ≠ .completed →
      (∀ it ∈ db.order_items.filter (fun it => it.order_id == oid),
        (getStock db.products it.product_id).isSome) →
      ∃ db', updateOrderStatus db oid .cancelled = .ok db' ∧
        (∀ pid, getStock db'.products pid =
          (getStock db.products pid).map
            (fun s => s + sumItemQty (db.order_items.filter (fun it => it.order_id == oid)) pid)) ∧
        db'.stock_movements = db.stock_movements ++
          (db.order_items.filter (fun it => it.order_id == oid)).map (toReturnMovement oid)) ∧
    (∀ req : OrderReq,
      (∀ it ∈ req.items, itemOk db.products it = true) →
      (∀ it ∈ db.order_items, it.order_id ≠ db.next_order_id) →
      (∀ o ∈ db.orders, o.id ≠ db.next_order_id) →
      ∃ db1 db2, createOrder db req = .ok db1 ∧
        updateOrderStatus db1 db.next_order_id .cancelled = .ok db2 ∧
        (∀ pid, getStock db2.products pid = getStock db.products pid)) := by
  constructor
  · intro oid o hfind hnc hncp hpres
    obtain ⟨db', hok, -, -, hmov, hst⟩ := cancel_effect db oid o hfind hnc hncp hpres
    exact ⟨db', hok, hst, hmov⟩
  · intro req hok hfresh hofresh
    obtain ⟨db1, hdb1⟩ := createOrder_isOk db req hok
    obtain ⟨pis, hp, ho, hoi, -, hst, -⟩ := createOrder_ok_inv db req db1 hdb1
    obtain ⟨-, -, hpt⟩ := processItems_ok_inv db.products req.items pis hp
    have hfind1 : db1.orders.find? (fun x => x.id == db.next_order_id) =
        some (newOrderOf db req pis) := by
      rw [ho, List.find?_append]
      have hnone : db.orders.find? (fun x => x.id == db.next_order_id) = none := by
        rw [List.find?_eq_none]
        intro o hm
        simpa using hofresh o hm
      rw [hnone]
      simp [newOrderOf]
    have hfil : db1.order_items.filter (fun it => it.order_id == db.next_order_id) =
        pis.map (toOrderItem db.next_order_id) := by
      rw [hoi, List.filter_append]
      have hold : db.order_items.filter (fun it => it.order_id == db.next_order_id) = [] := by
        rw [List.filter_eq_nil_iff]
        intro it hm
        simpa using hfresh it hm
      have hnew : (pis.map (toOrderItem db.next_order_id)).filter
          (fun it => it.order_id == db.next_order_id) = pis.map (toOrderItem db.next_order_id) := by
        rw [List.filter_eq_self]
        intro it hm
        obtain ⟨pit, -, rfl⟩ := List.mem_map.mp hm
        simp [toOrderItem]
      rw [hold, hnew, List.nil_append]
    have hpres : ∀ it ∈ db1.order_items.filter (fun it => it.order_id == db.next_order_id),
        (getStock db1.products it.product_id).isSome := by
      intro it hm
      rw [hfil] at hm
      obtain ⟨pit, hpm, rfl⟩ := List.mem_map.mp hm
      obtain ⟨⟨p, hf, -⟩, -⟩ := hpt pit hpm
      have : getStock db.products pit.product_id = some p.stock := by
        rw [getStock, hf]; rfl
      rw [hst]
      show ((getStock db.products pit.product_id).map
        (fun s => s - sumQty pis pit.product_id)).isSome
      rw [this]
      rfl
    obtain ⟨db2, hok2, -, -, -, hst2⟩ := cancel_effect db1 db.next_order_id
      (newOrderOf db req pis) hfind1 (by intro hc; cases hc) (by intro hc; cases hc) hpres
    refine ⟨db1, db2, hdb1, hok2, ?_⟩
    intro pid
    rw [hst2 pid, hfil, sumItemQty_map_toOrderItem, hst pid]
    cases getStock db.products pid with
    | none => rfl
    | some s => simp

/-- Witness for C4: the round trip at a concrete store and request. -/
theorem cancel_round_trip_witness :
    ∃ db1 db2, createOrder exDB exReqOk = .ok db1 ∧
      updateOrderStatus db1 exDB.next_order_id .cancelled = .ok db2 ∧
      (∀ pid, getStock db2.products pid = getStock exDB.products pid) :=
  (cancel_round_trip exDB).2 exReqOk (by decide) (by decide) (by decide)

/-! ## Nonnegative-stock preservation lemmas -/

theorem mem_of_getStock_some (ps : List Product) (pid : Nat) (s : ℚ)
    (h : getStock ps pid = some s) : ∃ p ∈ ps, p.id = pid ∧ p.stock = s := by
  unfold getStock at h
  cases hf : ps.find? (fun p => p.id == pid) with
  | none => rw [hf] at h; cases h
  | some p =>
    rw [hf] at h
    have hs : p.stock = s := by simpa using h
    have hmem := List.mem_of_find?_eq_some hf
    have hid : p.id = pid := by simpa using List.find?_some hf
    exact ⟨p, hmem, hid, hs⟩

theorem setStock_nonneg (ps : List Product) (pid : Nat) (s : ℚ)
    (h0 : ∀ p ∈ ps, 0 ≤ p.stock) (hs : 0 ≤ s) :
    ∀ p' ∈ setStock ps pid s, 0 ≤ p'.stock := by
  intro p' hm
  unfold setStock at hm
  obtain ⟨p, hp, rfl⟩ := List.mem_map.mp hm
  by_cases h : p.id = pid
  · simp only [h, if_pos]
    simpa using hs
  · have hb : (p.id == pid) = false := by simp [h]
    simp only [hb]
    simpa using h0 p hp

theorem find?_setStock_other (ps : List Product) (pid pid' : Nat) (v : ℚ)
    (h : pid' ≠ pid) :
    (setStock ps pid v).find? (fun x => x.id == pid') =
      ps.find? (fun x => x.id == pid') := by
  induction ps with
  | nil => rfl
  | cons p ps ih =>
    rw [setStock_cons]
    by_cases hq : p.id = pid'
    · have hnp : ¬ p.id = pid := fun hc => h (by rw [← hq, hc])
      rw [if_neg hnp, List.find?_cons_of_pos _ (by simp [hq]),
        List.find?_cons_of_pos _ (by simp [hq])]
    · by_cases hp : p.id = pid
      · rw [if_pos hp, List.find?_cons_of_neg _ (by simp [hq]),
          List.find?_cons_of_neg _ (by simp [hq]), ih]
      · rw [if_neg hp, List.find?_cons_of_neg _ (by simp [hq]),
          List.find?_cons_of_neg _ (by simp [hq]), ih]

/-- The cancellation restore loop preserves nonnegative stock when the
restored quantities are nonnegative. -/
theorem restoreItems_nonneg (oid : Nat) (items : List OrderItem) :
    ∀ db db', restoreItems oid items db = .ok db' →
      (∀ p ∈ db.products, 0 ≤ p.stock) → (∀ it ∈ items, 0 ≤ it.quantity) →
      ∀ p' ∈ db'.products, 0 ≤ p'.stock := by
  induction items with
  | nil =>
    intro db db' h h0 _
    simp only [restoreItems] at h
    cases h
    exact h0
  | cons it rest ih =>
    intro db db' h h0 hq
    simp only [restoreItems] at h
    cases hg : getStock db.products it.product_id with
    | none => rw [hg] at h; exact absurd h (by simp)
    | some s =>
      rw [hg] at h
      obtain ⟨p, hm, -, hps⟩ := mem_of_getStock_some _ _ _ hg
      have hs : (0:ℚ) ≤ s := hps ▸ h0 p hm
      have hq0 : (0:ℚ) ≤ it.quantity := hq it (List.mem_cons_self it rest)
      exact ih _ _ h
        (setStock_nonneg _ _ _ h0 (by linarith))
        (fun it' hm' => hq it' (List.mem_cons_of_mem it hm'))

/-- The purchase-order receive loop preserves nonnegative stock when the
credited quantities are nonnegative. -/
theorem receiveItems_nonneg (poid : Nat) (items : List PurchaseOrderItem) :
    ∀ db db', receiveItems poid items db = .ok db' →
      (∀ p ∈ db.products, 0 ≤ p.stock) → (∀ it ∈ items, 0 ≤ it.quantity) →
      ∀ p' ∈ db'.products, 0 ≤ p'.stock := by
  induction items with
  | nil =>
    intro db db' h h0 _
    simp only [receiveItems] at h
    cases h
    exact h0
  | cons it rest ih =>
    intro db db' h h0 hq
    simp only [receiveItems] at h
    cases hg : getStock db.products it.product_id with
    | none => rw [hg] at h; exact absurd h (by simp)
    | some s =>
      rw [hg] at h
      obtain ⟨p, hm, -, hps⟩ := mem_of_getStock_some _ _ _ hg
      have hs : (0:ℚ) ≤ s := hps ▸ h0 p hm
      have hq0 : (0:ℚ) ≤ it.quantity := hq it (List.mem_cons_self it rest)
      exact ih _ _ h
        (setStock_nonneg _ _ _ h0 (by linarith))
        (fun it' hm' => hq it' (List.mem_cons_of_mem it hm'))

/-- The placement decrement loop preserves nonnegative stock when no two
items share a product and every item passed the stock check against the
pre-placement stock. -/
theorem applyItems_nonneg (oid : Nat) (pis : List ProcItem) :
    ∀ db db', applyItems oid pis db = .ok db' →
      (∀ p ∈ db.products, 0 ≤ p.stock) →
      (pis.map ProcItem.product_id).Nodup →
      (∀ it ∈ pis, ∃ p, db.products.find? (fun x => x.id == it.product_id) = some p ∧
        it.quantity ≤ p.stock) →
      ∀ p' ∈ db'.products, 0 ≤ p'.stock := by
  induction pis with
  | nil =>
    intro db db' h h0 _ _
    simp only [applyItems] at h
    cases h
    exact h0
  | cons it rest ih =>
    intro db db' h h0 hnd hinv
    simp only [applyItems] at h
    cases hg : getStock db.products it.product_id with
    | none => rw [hg] at h; exact absurd h (by simp)
    | some s =>
      rw [hg] at h
      obtain ⟨p, hf, hle⟩ := hinv it (List.mem_cons_self it rest)
      have hsp : s = p.stock := by
        unfold getStock at hg
        rw [hf] at hg
        simpa using hg.symm
      have hw : (0:ℚ) ≤ s - it.quantity := by
        rw [hsp]
        linarith
      have hnd' := hnd
      rw [List.map_cons] at hnd'
      obtain ⟨hnotin, hndrest⟩ := List.nodup_cons.mp hnd'
      refine ih _ _ h (setStock_nonneg _ _ _ h0 hw) hndrest ?_
      · intro it' hm'
        obtain ⟨p', hf', hle'⟩ := hinv it' (List.mem_cons_of_mem it hm')
        have hne : it'.product_id ≠ it.product_id := by
          intro hc
          exact hnotin (hc ▸ List.mem_map_of_mem ProcItem.product_id hm')
        refine ⟨p', ?_, hle'⟩
        show (setStock db.products it.product_id (s - it.quantity)).find?
          (fun x => x.id == it'.product_id) = some p'
        rw [find?_setStock_other _ _ _ _ hne]
        exact hf'

/-- Successful stock adjustment: the guard admitted a nonnegative new stock
value, and only the target product's stock was rewritten. -/
theorem adjustStock_ok_inv (db : DB) (pid : Nat) (q : ℚ) (ty : String) (db' : DB)
    (h : adjustStock db pid q ty = .ok db') :
    ∃ p, db.products.find? (fun x => x.id == pid) = some p ∧
      ¬ adjustedStock p.stock q ty < 0 ∧
      db'.products = setStock db.products pid (adjustedStock p.stock q ty) := by
  simp only [adjustStock] at h
  cases hf : db.products.find? (fun x => x.id == pid) with
  | none => rw [hf] at h; exact absurd h (by simp)
  | some p =>
    rw [hf] at h
    dsimp only at h
    by_cases hg : adjustedStock p.stock q ty < 0
    · rw [if_pos hg] at h; exact absurd h (by simp)
    · rw [if_neg hg] at h
      cases h
      exact ⟨p, rfl, hg, rfl⟩

/-- Successful order-status update: the products table is unchanged unless
the cancellation restore loop ran. -/
theorem updateOrderStatus_ok_products (db : DB) (oid : Nat) (st : OrderStatus)
    (db' : DB) (h : updateOrderStatus db oid st = .ok db') :
    db'.products = db.products ∨
    ∃ db1, restoreItems oid (db.order_items.filter (fun it => it.order_id == oid)) db = .ok db1 ∧
      db'.products = db1.products := by
  simp only [updateOrderStatus] at h
  cases hf : db.orders.find? (fun x => x.id == oid) with
  | none => rw [hf] at h; exact absurd h (by simp)
  | some o =>
    rw [hf] at h
    dsimp only at h
    by_cases hg1 : o.status = .cancelled ∧ st ≠ .cancelled
    · rw [if_pos hg1] at h; exact absurd h (by simp)
    · rw [if_neg hg1] at h
      by_cases hg2 : o.status = .completed ∧ st ≠ .completed
      · rw [if_pos hg2] at h; exact absurd h (by simp)
      · rw [if_neg hg2] at h
        by_cases hg3 : st = .cancelled ∧ o.status ≠ .cancelled
        · rw [if_pos hg3] at h
          cases hr : restoreItems oid (db.order_items.filter (fun it => it.order_id == oid)) db with
          | error e => rw [hr] at h; exact absurd h (by simp)
          | ok db1 =>
            rw [hr] at h
            cases h
            exact Or.inr ⟨db1, rfl, rfl⟩
        · rw [if_neg hg3] at h
          cases h
          exact Or.inl rfl

/-- Successful purchase-order status update: the products table is
unchanged unless the receive loop ran. -/
theorem updatePOStatus_ok_products (db : DB) (poid : Nat) (st : POStatus)
    (db' : DB) (h : updatePOStatus db poid st = .ok db') :
    db'.products = db.products ∨
    ∃ db1, receiveItems poid
        (db.purchase_order_items.filter (fun it => it.purchase_order_id == poid)) db = .ok db1 ∧
      db'.products = db1.products := by
  simp only [updatePOStatus] at h
  cases hf : db.purchase_orders.find? (fun po => po.id == poid) with
  | none => rw [hf] at h; exact absurd h (by simp)
  | some po =>
    rw [hf] at h
    dsimp only at h
    by_cases hg : st = .received ∧ po.status ≠ .received
    · rw [if_pos hg] at h
      cases hr : receiveItems poid
          (db.purchase_order_items.filter (fun it => it.purchase_order_id == poid)) db with
      | error e => rw [hr] at h; exact absurd h (by simp)
      | ok db1 =>
        rw [hr] at h
        cases h
        exact Or.inr ⟨db1, rfl, rfl⟩
    · rw [if_neg hg] at h
      cases h
      exact Or.inl rfl

/-! ## Claim C5 -/

/-- C5 counterexample: an order whose two line items reference the same
product passes both per-item checks against the pre-order stock of 10,
commits, and leaves the product at stock -2, violating the claimed
invariant on a write performed by order placement. -/
theorem stock_nonneg_counterexample :
    stockNonneg exDBDup ∧
    (createOrder exDBDup exReqDup).isOk = true ∧
    getStock (runCreateOrder exDBDup exReqDup).products 1 = some (-2) ∧
    ¬ stockNonneg (runCreateOrder exDBDup exReqDup) := by
  have hprod : (runCreateOrder exDBDup exReqDup).products =
      [{ id := 1, name := "Apple", price := 5, stock := -2, supplier := none }] := by
    norm_num [runCreateOrder, createOrder, processItems, applyItems, exDBDup, exReqDup,
      emptyDB, getStock, setStock, resolvePrice, toOrderItem, toSaleMovement, newOrderOf,
      List.find?]
  refine ⟨by decide, by decide, ?_, ?_⟩
  · rw [getStock, hprod]
    simp [List.find?]
  · intro h
    have hm : ({ id := 1, name := "Apple", price := 5, stock := -2, supplier := none } : Product)
        ∈ (runCreateOrder exDBDup exReqDup).products := by
      rw [hprod]
      exact List.mem_singleton_self _
    have := h _ hm
    norm_num at this

/-- C5 amended: every write of order placement, order cancellation,
purchase-order receiving and manual stock adjustment preserves
`stock ≥ 0`, provided no two line items of a placement reference the same
product (without that proviso the counterexample drives stock negative) and
stored item quantities are nonnegative. -/
theorem stock_nonneg_preserved :
    (∀ (db : DB) (req : OrderReq), stockNonneg db →
      (req.items.map ReqItem.product_id).Nodup →
      stockNonneg (runCreateOrder db req)) ∧
    (∀ (db : DB) (oid : Nat) (st : OrderStatus), stockNonneg db →
      (∀ it ∈ db.order_items, 0 ≤ it.quantity) →
      stockNonneg (runUpdateOrderStatus db oid st)) ∧
    (∀ (db : DB) (poid : Nat) (st : POStatus), stockNonneg db →
      (∀ it ∈ db.purchase_order_items, 0 ≤ it.quantity) →
      stockNonneg (runUpdatePOStatus db poid st)) ∧
    (∀ (db : DB) (pid : Nat) (q : ℚ) (ty : String), stockNonneg db →
      stockNonneg (runAdjustStock db pid q ty)) := by
  refine ⟨?_, ?_, ?_, ?_⟩
  · intro db req h0 hnd
    unfold runCreateOrder
    cases hco : createOrder db req with
    | error e => exact h0
    | ok db' =>
      simp only [createOrder] at hco
      cases hp : processItems db.products req.items with
      | error e => rw [hp] at hco; exact absurd hco (by simp)
      | ok pis =>
        rw [hp] at hco
        obtain ⟨hids, -, hpt⟩ := processItems_ok_inv db.products req.items pis hp
        intro p' hm'
        refine applyItems_nonneg db.next_order_id pis _ db' hco h0 ?_ ?_ p' hm'
        · rw [hids]; exact hnd
        · intro it hmem
          obtain ⟨⟨p, hf, hle⟩, -⟩ := hpt it hmem
          exact ⟨p, hf, hle⟩
  · intro db oid st h0 hq
    unfold runUpdateOrderStatus
    cases hu : updateOrderStatus db oid st with
    | error e => exact h0
    | ok db' =>
      rcases updateOrderStatus_ok_products db oid st db' hu with hsame | ⟨db1, hr, hpr⟩
      · intro p' hm'; rw [hsame] at hm'; exact h0 p' hm'
      · intro p' hm'
        rw [hpr] at hm'
        exact restoreItems_nonneg oid _ db db1 hr h0
          (fun it hm => hq it (List.mem_of_mem_filter hm)) p' hm'
  · intro db poid st h0 hq
    unfold runUpdatePOStatus
    cases hu : updatePOStatus db poid st with
    | error e => exact h0
    | ok db' =>
      rcases updatePOStatus_ok_products db poid st db' hu with hsame | ⟨db1, hr, hpr⟩
      · intro p' hm'; rw [hsame] at hm'; exact h0 p' hm'
      · intro p' hm'
        rw [hpr] at hm'
        exact receiveItems_nonneg poid _ db db1 hr h0
          (fun it hm => hq it (List.mem_of_mem_filter hm)) p' hm'
  · intro db pid q ty h0
    unfold runAdjustStock
    cases ha : adjustStock db pid q ty with
    | error e => exact h0
    | ok db' =>
      obtain ⟨p, -, hg, hpr⟩ := adjustStock_ok_inv db pid q ty db' ha
      intro p' hm'
      rw [hpr] at hm'
      exact setStock_nonneg _ _ _ h0 (not_lt.mp hg) p' hm'

/-- Witness for C5 amended: all four operations at concrete inputs. -/
theorem stock_nonneg_preserved_witness :
    stockNonneg (runCreateOrder exDB exReqOk) ∧
    stockNonneg (runUpdateOrderStatus exDB6 1 .cancelled) ∧
    stockNonneg (runUpdatePOStatus exDB 1 .received) ∧
    stockNonneg (runAdjustStock exDB 1 5 "adjustment") :=
  ⟨stock_nonneg_preserved.1 exDB exReqOk (by decide) (by decide),
   stock_nonneg_preserved.2.1 exDB6 1 .cancelled (by decide) (by decide),
   stock_nonneg_preserved.2.2.1 exDB 1 .received (by decide) (by decide),
   stock_nonneg_preserved.2.2.2 exDB 1 5 "adjustment" (by decide)⟩

/-! ## Claim C6 -/

/-- C6 counterexample: the handler performs `processing → pending`, a
transition outside the spec's state machine, so the claim that no
transition outside the relation is performed is false. -/
theorem order_state_machine_counterexample :
    (updateOrderStatus exDB6 1 .pending).isOk = true ∧
    (runUpdateOrderStatus exDB6 1 .pending).orders.map Order.status = [OrderStatus.pending] ∧
    specOrderTransition .processing .pending = false := by
  refine ⟨?_, ?_, rfl⟩ <;> decide

/-- C6 amended: the handler enforces only the terminal-state guards — a
change away from `cancelled` or away from `completed` fails with an
invalid-transition error and leaves the store unchanged — while every other
status write (including `processing → pending` and `pending → completed`)
is performed unconditionally. -/
theorem order_status_terminal_guards (db : DB) (oid : Nat) (o : Order)
    (st : OrderStatus)
    (hfind : db.orders.find? (fun x => x.id == oid) = some o) :
    (o.status = .cancelled → st ≠ .cancelled →
      updateOrderStatus db oid st = .error .invalidFromCancelled ∧
      runUpdateOrderStatus db oid st = db) ∧
    (o.status = .completed → st ≠ .completed →
      updateOrderStatus db oid st = .error .invalidFromCompleted ∧
      runUpdateOrderStatus db oid st = db) ∧
    (¬(o.status = .cancelled ∧ st ≠ .cancelled) →
      ¬(o.status = .completed ∧ st ≠ .completed) →
      ¬(st = .cancelled ∧ o.status ≠ .cancelled) →
      updateOrderStatus db oid st = .ok { db with orders := setOrderStatus db.orders oid st }) ∧
    (st = .cancelled → o.status ≠ .cancelled → o.status ≠ .completed →
      (∀ it ∈ db.order_items.filter (fun it => it.order_id == oid),
        (getStock db.products it.product_id).isSome) →
      ∃ db', updateOrderStatus db oid st = .ok db' ∧
        db'.orders = setOrderStatus db.orders oid st) := by
  refine ⟨?_, ?_, ?_, ?_⟩
  · intro h1 h2
    have herr : updateOrderStatus db oid st = .error .invalidFromCancelled := by
      simp only [updateOrderStatus]
      rw [hfind]
      dsimp only
      rw [if_pos ⟨h1, h2⟩]
    exact ⟨herr, by unfold runUpdateOrderStatus; rw [herr]⟩
  · intro h1 h2
    have herr : updateOrderStatus db oid st = .error .invalidFromCompleted := by
      simp only [updateOrderStatus]
      rw [hfind]
      dsimp only
      rw [if_neg (by rintro ⟨hc, -⟩; rw [h1] at hc; exact absurd hc (by decide))]
      rw [if_pos ⟨h1, h2⟩]
    exact ⟨herr, by unfold runUpdateOrderStatus; rw [herr]⟩
  · intro hg1 hg2 hg3
    simp only [updateOrderStatus]
    rw [hfind]
    dsimp only
    rw [if_neg hg1, if_neg hg2, if_neg hg3]
  · intro hst hnc hncp hpres
    subst hst
    obtain ⟨db', hok, ho, -, -, -⟩ := cancel_effect db oid o hfind hnc hncp hpres
    exact ⟨db', hok, ho⟩

/-- Witness for C6 amended: a cancelled order rejects a change to
`pending`, and a processing order accepts a direct jump to `completed`. -/
theorem order_status_terminal_guards_witness :
    (updateOrderStatus exDBCancelled 1 .pending = .error .invalidFromCancelled ∧
      runUpdateOrderStatus exDBCancelled 1 .pending = exDBCancelled) ∧
    updateOrderStatus exDB6 1 .completed =
      .ok { exDB6 with orders := setOrderStatus exDB6.orders 1 .completed } := by
  constructor
  · exact (order_status_terminal_guards exDBCancelled 1
      { exOrderProcessing with status := .cancelled } .pending (by decide)).1 rfl (by decide)
  · exact (order_status_terminal_guards exDB6 1 exOrderProcessing .completed (by decide)).2.2.1
      (by decide) (by decide) (by decide)

/-! ## Purchase-order receive lemmas -/

theorem markReceived_tri (rows : List PurchaseOrderItem) (poid pid : Nat) :
    (markReceived rows poid pid).map poTri = rows.map poTri := by
  unfold markReceived
  rw [List.map_map]
  apply List.map_congr_left
  intro r _
  by_cases hc : (r.purchase_order_id == poid && r.product_id == pid) = true
  · simp only [Function.comp_apply, if_pos hc]; rfl
  · simp only [Function.comp_apply, if_neg hc]

theorem receiveItems_poi_tri (poid : Nat) (items : List PurchaseOrderItem) :
    ∀ db db', receiveItems poid items db = .ok db' →
      db'.purchase_order_items.map poTri = db.purchase_order_items.map poTri := by
  induction items with
  | nil =>
    intro db db' h
    simp only [receiveItems] at h
    cases h
    rfl
  | cons it rest ih =>
    intro db db' h
    simp only [receiveItems] at h
    cases hg : getStock db.products it.product_id with
    | none => rw [hg] at h; exact absurd h (by simp)
    | some s =>
      rw [hg] at h
      rw [ih _ _ h]
      exact markReceived_tri db.purchase_order_items poid it.product_id

theorem markReceived_establishes (rows : List PurchaseOrderItem) (poid pid : Nat) :
    ∀ r ∈ markReceived rows poid pid,
      r.purchase_order_id = poid → r.product_id = pid →
      r.received_quantity = r.quantity := by
  intro r hm
  unfold markReceived at hm
  obtain ⟨r0, hr0, rfl⟩ := List.mem_map.mp hm
  by_cases hc : (r0.purchase_order_id == poid && r0.product_id == pid) = true
  · rw [if_pos hc]
    intro _ _
    rfl
  · rw [if_neg hc]
    intro h1 h2
    exact absurd (by simp [h1, h2]) hc

theorem markReceived_preserves (rows : List PurchaseOrderItem)
    (poid' pid' poid pid : Nat)
    (h : ∀ r ∈ rows, r.purchase_order_id = poid → r.product_id = pid →
      r.received_quantity = r.quantity) :
    ∀ r ∈ markReceived rows poid' pid',
      r.purchase_order_id = poid → r.product_id = pid →
      r.received_quantity = r.quantity := by
  intro r hm
  unfold markReceived at hm
  obtain ⟨r0, hr0, rfl⟩ := List.mem_map.mp hm
  by_cases hc : (r0.purchase_order_id == poid' && r0.product_id == pid') = true
  · rw [if_pos hc]
    intro _ _
    rfl
  · rw [if_neg hc]
    exact h r0 hr0

theorem receiveItems_preserves_marked (poid' : Nat) (items : List PurchaseOrderItem)
    (poid pid : Nat) :
    ∀ db db', receiveItems poid' items db = .ok db' →
      (∀ r ∈ db.purchase_order_items, r.purchase_order_id = poid →
        r.product_id = pid → r.received_quantity = r.quantity) →
      ∀ r ∈ db'.purchase_order_items, r.purchase_order_id = poid →
        r.product_id = pid → r.received_quantity = r.quantity := by
  induction items with
  | nil =>
    intro db db' h hbase
    simp only [receiveItems] at h
    cases h
    exact hbase
  | cons it rest ih =>
    intro db db' h hbase
    simp only [receiveItems] at h
    cases hg : getStock db.products it.product_id with
    | none => rw [hg] at h; exact absurd h (by simp)
    | some s =>
      rw [hg] at h
      exact ih _ _ h
        (markReceived_preserves db.purchase_order_items poid' it.product_id poid pid hbase)

theorem receiveItems_marked (poid : Nat) (items : List PurchaseOrderItem) :
    ∀ db db', receiveItems poid items db = .ok db' →
      ∀ pid ∈ items.map PurchaseOrderItem.product_id,
        ∀ r ∈ db'.purchase_order_items, r.purchase_order_id = poid →
          r.product_id = pid → r.received_quantity = r.quantity := by
  induction items with
  | nil =>
    intro db db' _ pid hpid
    simp at hpid
  | cons it rest ih =>
    intro db db' h pid hpid
    simp only [receiveItems] at h
    cases hg : getStock db.products it.product_id with
    | none => rw [hg] at h; exact absurd h (by simp)
    | some s =>
      rw [hg] at h
      rw [List.map_cons] at hpid
      rcases List.mem_cons.mp hpid with hpe | hpm
      · subst hpe
        exact receiveItems_preserves_marked poid rest poid it.product_id _ _ h
          (markReceived_establishes db.purchase_order_items poid it.product_id)
      · exact ih _ _ h pid hpm

theorem poSum_cons (r : PurchaseOrderItem) (rows : List PurchaseOrderItem)
    (poid pid : Nat) :
    poSum (r :: rows) poid pid =
      (if r.purchase_order_id = poid ∧ r.product_id = pid then r.quantity else 0) +
        poSum rows poid pid := by
  by_cases h1 : r.purchase_order_id = poid
  · by_cases h2 : r.product_id = pid
    · simp [poSum, List.filter_cons, h1, sumPOQty_cons, h2]
    · simp [poSum, List.filter_cons, h1, sumPOQty_cons, h2]
  · have : ¬(r.purchase_order_id = poid ∧ r.product_id = pid) := fun hc => h1 hc.1
    simp [poSum, List.filter_cons, h1, this]

theorem poSum_congr :
    ∀ xs ys : List PurchaseOrderItem, xs.map poTri = ys.map poTri →
      ∀ poid pid, poSum xs poid pid = poSum ys poid pid := by
  intro xs
  induction xs with
  | nil =>
    intro ys h poid pid
    cases ys with
    | nil => rfl
    | cons a l => simp at h
  | cons x xs ih =>
    intro ys h poid pid
    cases ys with
    | nil => simp at h
    | cons y ys =>
      simp only [List.map_cons, List.cons.injEq] at h
      have h1 : x.purchase_order_id = y.purchase_order_id ∧
          x.product_id = y.product_id ∧ x.quantity = y.quantity := by
        have := h.1
        simp only [poTri, Prod.mk.injEq] at this
        exact this
      rw [poSum_cons, poSum_cons, ih ys h.2 poid pid, h1.1, h1.2.1, h1.2.2]

theorem find?_setPOStatus_self (pos : List PurchaseOrder) (poid : Nat) (st : POStatus) :
    (setPOStatus pos poid st).find? (fun x => x.id == poid) =
      (pos.find? (fun x => x.id == poid)).map (fun po => { po with status := st }) := by
  induction pos with
  | nil => rfl
  | cons p ps ih =>
    rw [setPOStatus]
    by_cases hp : p.id = poid
    · have hb : (p.id == poid) = true := by simp [hp]
      simp only [List.map_cons, hb, if_pos rfl]
      rw [List.find?_cons_of_pos _ (by simpa using hb),
        List.find?_cons_of_pos _ (by simpa using hb)]
      rfl
    · have hb : (p.id == poid) = false := by simp [hp]
      simp only [List.map_cons, hb, Bool.false_eq_true, if_false]
      rw [List.find?_cons_of_neg _ (by simp [hp]),
        List.find?_cons_of_neg _ (by simp [hp])]
      exact ih

/-! ## Claim C9 -/

/-- C9 counterexample: two consecutive status updates to `received` credit
the stock once, not twice — the second receive finds the order already
`received` and skips the side effects, so the claim's back-to-back
double-credit sequence does not exist without an intervening status
change. -/
theorem po_receive_twice_counterexample :
    (updatePOStatus exPODB 1 .received).isOk = true ∧
    getStock (runUpdatePOStatus exPODB 1 .received).products 1 = some 5 ∧
    (updatePOStatus (runUpdatePOStatus exPODB 1 .received) 1 .received).isOk = true ∧
    getStock (runUpdatePOStatus (runUpdatePOStatus exPODB 1 .received) 1 .received).products 1
      = some 5 ∧
    (5 : ℚ) ≠ 0 + 5 + 5 := by
  have h1 : runUpdatePOStatus exPODB 1 .received = exPODBAfter := by
    norm_num [runUpdatePOStatus, updatePOStatus, receiveItems, markReceived, setPOStatus,
      setStock, getStock, toPurchaseMovement, exPODB, exPODBAfter, emptyDB, List.find?,
      List.filter, eq_false (show ¬(POStatus.pending = POStatus.received) by decide)]
  have h2 : runUpdatePOStatus exPODBAfter 1 .received = exPODBAfter := by decide
  refine ⟨by decide, ?_, ?_, ?_, by norm_num⟩
  · rw [h1]; decide
  · rw [h1]; decide
  · rw [h1, h2]; decide

/-- C9 amended: a single receive from a non-`received` state credits each
product's stock by the order's summed item quantities, appends one
`in`/`purchase` movement per line item, and sets every line item's
`received_quantity` to its quantity; a status change that is not into
`received` from non-`received` (in particular a second consecutive receive)
leaves products, items and movements untouched; and because only the
order-level status is checked, the sequence receive → (any non-received
status) → receive credits every product twice. -/
theorem po_receive_effects (db : DB) (poid : Nat) (po : PurchaseOrder)
    (hfind : db.purchase_orders.find? (fun x => x.id == poid) = some po) :
    (po.status ≠ .received →
      (∀ it ∈ db.purchase_order_items.filter (fun it => it.purchase_order_id == poid),
        (getStock db.products it.product_id).isSome) →
      ∃ db', updatePOStatus db poid .received = .ok db' ∧
        (∀ pid, getStock db'.products pid =
          (getStock db.products pid).map
            (fun s => s + poSum db.purchase_order_items poid pid)) ∧
        db'.stock_movements = db.stock_movements ++
          (db.purchase_order_items.filter (fun it => it.purchase_order_id == poid)).map
            (toPurchaseMovement poid) ∧
        (∀ r ∈ db'.purchase_order_items, r.purchase_order_id = poid →
          r.received_quantity = r.quantity) ∧
        db'.purchase_orders = setPOStatus db.purchase_orders poid .received) ∧
    (∀ st : POStatus, ¬(st = .received ∧ po.status ≠ .received) →
      updatePOStatus db poid st =
        .ok { db with purchase_orders := setPOStatus db.purchase_orders poid st }) ∧
    (po.status ≠ .received →
      (∀ it ∈ db.purchase_order_items.filter (fun it => it.purchase_order_id == poid),
        (getStock db.products it.product_id).isSome) →
      ∀ mid : POStatus, mid ≠ .received →
      ∃ db1 db2 db3,
        updatePOStatus db poid .received = .ok db1 ∧
        updatePOStatus db1 poid mid = .ok db2 ∧
        updatePOStatus db2 poid .received = .ok db3 ∧
        (∀ pid, getStock db3.products pid =
          (getStock db.products pid).map
            (fun s => s + poSum db.purchase_order_items poid pid
              + poSum db.purchase_order_items poid pid))) := by
  have hrecv : ∀ db₀ : DB, ∀ po₀ : PurchaseOrder,
      db₀.purchase_orders.find? (fun x => x.id == poid) = some po₀ →
      po₀.status ≠ .received →
      (∀ it ∈ db₀.purchase_order_items.filter (fun it => it.purchase_order_id == poid),
        (getStock db₀.products it.product_id).isSome) →
      ∃ db', updatePOStatus db₀ poid .received = .ok db' ∧
        (∀ pid, getStock db'.products pid =
          (getStock db₀.products pid).map
            (fun s => s + poSum db₀.purchase_order_items poid pid)) ∧
        db'.stock_movements = db₀.stock_movements ++
          (db₀.purchase_order_items.filter (fun it => it.purchase_order_id == poid)).map
            (toPurchaseMovement poid) ∧
        (∀ r ∈ db'.purchase_order_items, r.purchase_order_id = poid →
          r.received_quantity = r.quantity) ∧
        db'.purchase_orders = setPOStatus db₀.purchase_orders poid .received ∧
        db'.purchase_order_items.map poTri = db₀.purchase_order_items.map poTri := by
    intro db₀ po₀ hf hnr hpres
    obtain ⟨db1, hr⟩ := receiveItems_isOk poid
      (db₀.purchase_order_items.filter (fun it => it.purchase_order_id == poid)) db₀
      (fun it hm => hpres it hm)
    obtain ⟨-, -, hmov, hst, hsh⟩ := receiveItems_ok poid _ db₀ db1 hr
    have htri := receiveItems_poi_tri poid _ db₀ db1 hr
    refine ⟨{ db1 with purchase_orders := setPOStatus db1.purchase_orders poid .received },
      ?_, ?_, hmov, ?_, ?_, htri⟩
    · simp only [updatePOStatus]
      rw [hf]
      dsimp only
      rw [if_pos ⟨by trivial, hnr⟩, hr]
    · intro pid
      exact hst pid
    · intro r hm hpo
      have hmem : poTri r ∈ db1.purchase_order_items.map poTri :=
        List.mem_map_of_mem poTri hm
      rw [htri] at hmem
      obtain ⟨r0, hr0, htr0⟩ := List.mem_map.mp hmem
      have hcomp : r0.purchase_order_id = r.purchase_order_id ∧
          r0.product_id = r.product_id ∧ r0.quantity = r.quantity := by
        simpa [poTri, Prod.mk.injEq] using htr0
      have hr0fil : r0 ∈ db₀.purchase_order_items.filter
          (fun it => it.purchase_order_id == poid) := by
        apply List.mem_filter.mpr
        exact ⟨hr0, by simp [hcomp.1, hpo]⟩
      have hpid : r.product_id ∈
          (db₀.purchase_order_items.filter
            (fun it => it.purchase_order_id == poid)).map PurchaseOrderItem.product_id := by
        rw [← hcomp.2.1]
        exact List.mem_map_of_mem PurchaseOrderItem.product_id hr0fil
      exact receiveItems_marked poid _ db₀ db1 hr r.product_id hpid r hm hpo rfl
    · show setPOStatus db1.purchase_orders poid .received = _
      rw [hsh.3]
  have hnoop : ∀ (db₀ : DB) (po₀ : PurchaseOrder) (st : POStatus),
      db₀.purchase_orders.find? (fun x => x.id == poid) = some po₀ →
      ¬(st = .received ∧ po₀.status ≠ .received) →
      updatePOStatus db₀ poid st =
        .ok { db₀ with purchase_orders := setPOStatus db₀.purchase_orders poid st } := by
    intro db₀ po₀ st hf hg
    simp only [updatePOStatus]
    rw [hf]
    dsimp only
    rw [if_neg hg]
  refine ⟨?_, ?_, ?_⟩
  · intro hnr hpres
    obtain ⟨db', h1, h2, h3, h4, h5, -⟩ := hrecv db po hfind hnr hpres
    exact ⟨db', h1, h2, h3, h4, h5⟩
  · intro st hg
    exact hnoop db po st hfind hg
  · intro hnr hpres mid hmid
    obtain ⟨db1, h1, hst1, -, -, hpos1, htri1⟩ := hrecv db po hfind hnr hpres
    have hfind1 : db1.purchase_orders.find? (fun x => x.id == poid) =
        some { po with status := .received } := by
      rw [hpos1, find?_setPOStatus_self, hfind]
      rfl
    have h2 := hnoop db1 { po with status := .received } mid hfind1
      (fun hc => hmid hc.1)
    have hfind2 : (setPOStatus db1.purchase_orders poid mid).find?
        (fun x => x.id == poid) = some { po with status := mid } := by
      rw [find?_setPOStatus_self, hfind1]
      rfl
    have hpres2 : ∀ it ∈ db1.purchase_order_items.filter
        (fun it => it.purchase_order_id == poid),
        (getStock db1.products it.product_id).isSome := by
      intro it hm
      have hm1 : it ∈ db1.purchase_order_items := List.mem_of_mem_filter hm
      have hmem : poTri it ∈ db1.purchase_order_items.map poTri :=
        List.mem_map_of_mem poTri hm1
      rw [htri1] at hmem
      obtain ⟨r0, hr0, htr0⟩ := List.mem_map.mp hmem
      have hcomp : r0.purchase_order_id = it.purchase_order_id ∧
          r0.product_id = it.product_id ∧ r0.quantity = it.quantity := by
        simpa [poTri, Prod.mk.injEq] using htr0
      have hpo : it.purchase_order_id = poid := by
        simpa using List.of_mem_filter hm
      have hr0fil : r0 ∈ db.purchase_order_items.filter
          (fun x => x.purchase_order_id == poid) := by
        apply List.mem_filter.mpr
        exact ⟨hr0, by simp [hcomp.1, hpo]⟩
      have h0 := hpres r0 hr0fil
      rw [hst1 it.product_id, ← hcomp.2.1]
      cases hx : getStock db.products r0.product_id with
      | none => rw [hx] at h0; exact absurd h0 (by simp)
      | some s => rfl
    obtain ⟨db3, h3, hst3, -, -, -, -⟩ := hrecv
      { db1 with purchase_orders := setPOStatus db1.purchase_orders poid mid }
      { po with status := mid } (by exact hfind2) (by simpa using hmid)
      (by exact hpres2)
    refine ⟨db1, _, db3, h1, h2, h3, ?_⟩
    intro pid
    rw [hst3 pid]
    have hsum2 : poSum db1.purchase_order_items poid pid =
        poSum db.purchase_order_items poid pid :=
      poSum_congr _ _ htri1 poid pid
    show ((getStock db1.products pid).map _) = _
    rw [hst1 pid]
    show ((getStock db.products pid).map _).map
      (fun s => s + poSum db1.purchase_order_items poid pid) = _
    rw [hsum2]
    cases getStock db.products pid with
    | none => rfl
    | some s => rfl

/-- Witness for C9 amended: single receive and the three-step double credit
at the concrete purchase order. -/
theorem po_receive_effects_witness :
    (∃ db', updatePOStatus exPODB 1 .received = .ok db' ∧
      (∀ r ∈ db'.purchase_order_items, r.purchase_order_id = 1 →
        r.received_quantity = r.quantity)) ∧
    (∃ db1 db2 db3,
      updatePOStatus exPODB 1 .received = .ok db1 ∧
      updatePOStatus db1 1 .pending = .ok db2 ∧
      updatePOStatus db2 1 .received = .ok db3 ∧
      (∀ pid, getStock db3.products pid =
        (getStock exPODB.products pid).map
          (fun s => s + poSum exPODB.purchase_order_items 1 pid
            + poSum exPODB.purchase_order_items 1 pid))) := by
  constructor
  · obtain ⟨db', h1, -, -, h4, -⟩ :=
      (po_receive_effects exPODB 1 { id := 1, supplier_id := none, status := .pending }
        (by decide)).1 (by decide) (by decide)
    exact ⟨db', h1, h4⟩
  · exact (po_receive_effects exPODB 1 { id := 1, supplier_id := none, status := .pending }
      (by decide)).2.2 (by decide) (by decide) .pending (by decide)

/-! ## Payment lemmas -/

theorem find?_setOrderPayStatus_self (orders : List Order) (oid : Nat)
    (st : PaymentStatus) :
    (setOrderPayStatus orders oid st).find? (fun x => x.id == oid) =
      (orders.find? (fun x => x.id == oid)).map
        (fun o => { o with payment_status := st }) := by
  induction orders with
  | nil => rfl
  | cons o os ih =>
    rw [setOrderPayStatus]
    by_cases hp : o.id = oid
    · have hb : (o.id == oid) = true := by simp [hp]
      simp only [List.map_cons, hb, if_pos rfl]
      rw [List.find?_cons_of_pos _ (by simpa using hb),
        List.find?_cons_of_pos _ (by simpa using hb)]
      rfl
    · have hb : (o.id == oid) = false := by simp [hp]
      simp only [List.map_cons, hb, Bool.false_eq_true, if_false]
      rw [List.find?_cons_of_neg _ (by simp [hp]),
        List.find?_cons_of_neg _ (by simp [hp])]
      exact ih

/-- Appending one completed payment against an order adds its amount to the
completed-payment sum for that order. -/
theorem sumCompletedOrder_append (db db' : DB) (oid : Nat) (pay : Payment)
    (hp : db'.payments = db.payments ++ [pay]) (h1 : pay.order_id = some oid)
    (h2 : pay.status = "completed") :
    sumCompletedOrder db' oid = sumCompletedOrder db oid + pay.amount := by
  unfold sumCompletedOrder
  rw [hp, List.filter_append]
  have : List.filter (fun p => p.order_id == some oid && p.status == "completed") [pay]
      = [pay] := by
    simp [List.filter_cons, h1, h2]
  rw [this]
  simp

/-- Appending one completed payment against an invoice adds its amount to
the completed-payment sum for that invoice. -/
theorem sumCompletedInvoice_append (db db' : DB) (iid : Nat) (pay : Payment)
    (hp : db'.payments = db.payments ++ [pay]) (h1 : pay.invoice_id = some iid)
    (h2 : pay.status = "completed") :
    sumCompletedInvoice db' iid = sumCompletedInvoice db iid + pay.amount := by
  unfold sumCompletedInvoice
  rw [hp, List.filter_append]
  have : List.filter (fun p => p.invoice_id == some iid && p.status == "completed") [pay]
      = [pay] := by
    simp [List.filter_cons, h1, h2]
  rw [this]
  simp

theorem find?_setInvoicePaid_self (invoices : List Invoice) (iid : Nat)
    (a : ℚ) (st : String) :
    (setInvoicePaid invoices iid a st).find? (fun x => x.id == iid) =
      (invoices.find? (fun x => x.id == iid)).map
        (fun i => { i with paid_amount := a, status := st }) := by
  induction invoices with
  | nil => rfl
  | cons i is ih =>
    rw [setInvoicePaid]
    by_cases hp : i.id = iid
    · have hb : (i.id == iid) = true := by simp [hp]
      simp only [List.map_cons, hb, if_pos rfl]
      rw [List.find?_cons_of_pos _ (by simpa using hb),
        List.find?_cons_of_pos _ (by simpa using hb)]
      rfl
    · have hb : (i.id == iid) = false := by simp [hp]
      simp only [List.map_cons, hb, Bool.false_eq_true, if_false]
      rw [List.find?_cons_of_neg _ (by simp [hp]),
        List.find?_cons_of_neg _ (by simp [hp])]
      exact ih

/-- Both order-id cases of the invoice branch append the same payment row. -/
theorem payInvoiceResult_payments (db : DB) (r : PayReq) (iid : Nat) (inv : Invoice) :
    (payInvoiceResult db r iid inv).payments =
      db.payments ++ [invoicePayRow db r iid inv] := by
  cases hro : r.order_id <;> simp only [payInvoiceResult, payInvoiceBase, hro]

/-- Both order-id cases of the invoice branch rewrite the invoice row the
same way. -/
theorem payInvoiceResult_invoices (db : DB) (r : PayReq) (iid : Nat) (inv : Invoice) :
    (payInvoiceResult db r iid inv).invoices =
      setInvoicePaid db.invoices iid (sumCompletedInvoice db iid + r.amount)
        (if inv.total ≤ sumCompletedInvoice db iid + r.amount then "paid"
         else "pending") := by
  cases hro : r.order_id <;> simp only [payInvoiceResult, payInvoiceBase, hro]

theorem classify_paid_iff (paid total : ℚ) :
    classify paid total = .paid ↔ total ≤ paid := by
  unfold classify
  by_cases h1 : total ≤ paid
  · simp [h1]
  · by_cases h2 : 0 < paid <;> simp [h1, h2]

theorem classify_partial (paid total : ℚ) (h1 : 0 < paid) (h2 : paid < total) :
    classify paid total = .partialPaid := by
  unfold classify
  rw [if_neg (not_le.mpr h2), if_pos h1]

theorem classify_pending (paid total : ℚ) (h1 : paid = 0) (h2 : 0 < total) :
    classify paid total = .pending := by
  unfold classify
  rw [if_neg (by rw [h1]; exact not_le.mpr h2), if_neg (by rw [h1]; exact lt_irrefl 0)]

/-- Replacing only the payments table leaves the orders table intact. -/
theorem orders_of_payments_update (db : DB) (ps : List Payment) :
    ({ db with payments := ps } : DB).orders = db.orders := rfl

/-- The Boolean validation prefix of `createPayment` passes whenever an id
is present, the amount is positive and a method is supplied. -/
theorem payReq_validation_false (r : PayReq) (oid : Nat)
    (ho : r.order_id = some oid ∨ (∃ iid, r.invoice_id = some iid))
    (ha : 0 < r.amount) (hm : r.payment_method.isSome) :
    ((r.order_id.isNone && r.invoice_id.isNone) || r.amount == 0
      || r.payment_method.isNone) = false := by
  obtain ⟨v, hv⟩ := Option.isSome_iff_exists.mp hm
  have hC : (r.amount == 0) = false := by
    rw [beq_eq_false_iff_ne]
    exact ne_of_gt ha
  have hD : r.payment_method.isNone = false := by rw [hv]; rfl
  rcases ho with ho | ⟨iid, hi⟩
  · have hA : r.order_id.isNone = false := by rw [ho]; rfl
    rw [hC, hD, hA]
    simp
  · have hB : r.invoice_id.isNone = false := by rw [hi]; rfl
    rw [hC, hD, hB]
    simp

/-- Under passing validation and an existing order target (no invoice id),
`createPayment` is exactly the exceed-check followed by the order-branch
writes. -/
theorem createPayment_order_eq (db : DB) (r : PayReq) (oid : Nat) (o : Order)
    (hinv : r.invoice_id = none) (hord : r.order_id = some oid)
    (hamt : 0 < r.amount) (hmeth : r.payment_method.isSome)
    (hfind : db.orders.find? (fun x => x.id == oid) = some o) :
    createPayment db r =
      if o.total < sumCompletedOrder db oid + r.amount then
        .error (.exceedsBalance o.total (sumCompletedOrder db oid)
          (o.total - sumCompletedOrder db oid))
      else .ok (payOrderResult db r oid o) := by
  have hv := payReq_validation_false r oid (Or.inl hord) hamt hmeth
  simp only [createPayment]
  rw [if_neg (by rw [hv]; exact Bool.false_ne_true), if_neg (not_le.mpr hamt)]
  simp only [hinv, hord]
  rw [hfind]
  rfl

/-- Under passing validation and an existing invoice target,
`createPayment` is exactly the exceed-check followed by the invoice-branch
writes. -/
theorem createPayment_invoice_eq (db : DB) (r : PayReq) (iid : Nat) (inv : Invoice)
    (hinv : r.invoice_id = some iid) (hamt : 0 < r.amount)
    (hmeth : r.payment_method.isSome)
    (hfind : db.invoices.find? (fun i => i.id == iid) = some inv) :
    createPayment db r =
      if inv.total < sumCompletedInvoice db iid + r.amount then
        .error (.exceedsBalance inv.total (sumCompletedInvoice db iid)
          (inv.total - sumCompletedInvoice db iid))
      else .ok (payInvoiceResult db r iid inv) := by
  have hv := payReq_validation_false r 0 (Or.inr ⟨iid, hinv⟩) hamt hmeth
  simp only [createPayment]
  rw [if_neg (by rw [hv]; exact Bool.false_ne_true), if_neg (not_le.mpr hamt)]
  simp only [hinv]
  rw [hfind]
  dsimp only
  by_cases hex : inv.total < sumCompletedInvoice db iid + r.amount
  · rw [if_pos hex, if_pos hex]
  · rw [if_neg hex, if_neg hex]
    cases hro : r.order_id <;>
      simp only [payInvoiceResult, payInvoiceBase, invoicePayRow, hro]

/-! ## Claim C2 -/

/-- C2: a payment against an order or invoice is rejected before insert iff
its amount pushed past the target's total, with an error reporting total,
already-paid and remaining balance; on acceptance the payment row is
inserted with status `completed` and the linked order's `payment_status` is
recomputed from the re-summed completed payments (`paid` iff sum ≥ total,
`partial` for a sum strictly between 0 and total, `pending` for a zero sum
on a positive total); payment update and delete run the same recompute for
the linked order. -/
theorem payment_application_contract :
    (∀ (db : DB) (r : PayReq) (oid : Nat) (o : Order),
      r.invoice_id = none → r.order_id = some oid → 0 < r.amount →
      r.payment_method.isSome →
      db.orders.find? (fun x => x.id == oid) = some o →
      ((o.total < sumCompletedOrder db oid + r.amount) ↔
        createPayment db r = .error (.exceedsBalance o.total (sumCompletedOrder db oid)
          (o.total - sumCompletedOrder db oid))) ∧
      (o.total < sumCompletedOrder db oid + r.amount → runCreatePayment db r = db) ∧
      (¬ o.total < sumCompletedOrder db oid + r.amount →
        ∃ db' pay, createPayment db r = .ok db' ∧
          db'.payments = db.payments ++ [pay] ∧
          pay.status = "completed" ∧ pay.amount = r.amount ∧ pay.order_id = some oid ∧
          sumCompletedOrder db' oid = sumCompletedOrder db oid + r.amount ∧
          ∃ o', db'.orders.find? (fun x => x.id == oid) = some o' ∧
            o'.total = o.total ∧
            o'.payment_status = classify (sumCompletedOrder db' oid) o.total ∧
            (o'.payment_status = .paid ↔ o.total ≤ sumCompletedOrder db' oid) ∧
            (0 < sumCompletedOrder db' oid ∧ sumCompletedOrder db' oid < o.total →
              o'.payment_status = .partialPaid) ∧
            (sumCompletedOrder db' oid = 0 → 0 < o.total →
              o'.payment_status = .pending))) ∧
    (∀ (db : DB) (r : PayReq) (iid : Nat) (inv : Invoice),
      r.invoice_id = some iid → 0 < r.amount → r.payment_method.isSome →
      db.invoices.find? (fun i => i.id == iid) = some inv →
      ((inv.total < sumCompletedInvoice db iid + r.amount) ↔
        createPayment db r = .error (.exceedsBalance inv.total (sumCompletedInvoice db iid)
          (inv.total - sumCompletedInvoice db iid))) ∧
      (inv.total < sumCompletedInvoice db iid + r.amount → runCreatePayment db r = db) ∧
      (¬ inv.total < sumCompletedInvoice db iid + r.amount →
        ∃ db' pay, createPayment db r = .ok db' ∧
          db'.payments = db.payments ++ [pay] ∧
          pay.status = "completed" ∧ pay.amount = r.amount ∧ pay.invoice_id = some iid ∧
          sumCompletedInvoice db' iid = sumCompletedInvoice db iid + r.amount ∧
          ∃ inv', db'.invoices.find? (fun x => x.id == iid) = some inv' ∧
            inv'.total = inv.total ∧
            inv'.paid_amount = sumCompletedInvoice db iid + r.amount ∧
            (inv'.status = "paid" ↔ inv.total ≤ sumCompletedInvoice db iid + r.amount) ∧
            (¬ inv.total ≤ sumCompletedInvoice db iid + r.amount →
              inv'.status = "pending"))) ∧
    (∀ (db : DB) (pid : Nat) (u : PayUpdate) (pay : Payment) (oid : Nat) (o : Order),
      db.payments.find? (fun p => p.id == pid) = some pay →
      pay.order_id = some oid →
      db.orders.find? (fun x => x.id == oid) = some o →
      (u.amount.isNone && u.payment_method.isNone && u.status.isNone) = false →
      ∃ db', updatePayment db pid u = .ok db' ∧
        ∃ o', db'.orders.find? (fun x => x.id == oid) = some o' ∧
          o'.total = o.total ∧
          o'.payment_status = classify (sumCompletedOrder db' oid) o.total) ∧
    (∀ (db : DB) (pid : Nat) (pay : Payment) (oid : Nat) (o : Order),
      db.payments.find? (fun p => p.id == pid) = some pay →
      pay.order_id = some oid →
      db.orders.find? (fun x => x.id == oid) = some o →
      ∃ db', deletePayment db pid = .ok db' ∧
        db'.payments = db.payments.filter (fun p => !(p.id == pid)) ∧
        ∃ o', db'.orders.find? (fun x => x.id == oid) = some o' ∧
          o'.total = o.total ∧
          o'.payment_status = classify (sumCompletedOrder db' oid) o.total) := by
  refine ⟨?_, ?_, ?_, ?_⟩
  · intro db r oid o hinv hord hamt hmeth hfind
    have key := createPayment_order_eq db r oid o hinv hord hamt hmeth hfind
    refine ⟨⟨?_, ?_⟩, ?_, ?_⟩
    · intro hex
      rw [key, if_pos hex]
    · intro heq
      by_cases hex : o.total < sumCompletedOrder db oid + r.amount
      · exact hex
      · rw [key, if_neg hex] at heq
        exact absurd heq (by simp)
    · intro hex
      unfold runCreatePayment
      rw [key, if_pos hex]
    · intro hex
      rw [key, if_neg hex]
      have hsum : sumCompletedOrder (payOrderResult db r oid o) oid =
          sumCompletedOrder db oid + r.amount :=
        sumCompletedOrder_append db (payOrderResult db r oid o) oid
          (orderPayRow db r oid o) rfl rfl rfl
      refine ⟨payOrderResult db r oid o, orderPayRow db r oid o, rfl, rfl, rfl, rfl, rfl,
        hsum, ?_⟩
      rw [show (payOrderResult db r oid o).orders = setOrderPayStatus db.orders oid
        (classify (sumCompletedOrder db oid + r.amount) o.total) from rfl,
        find?_setOrderPayStatus_self, hfind, hsum]
      refine ⟨_, rfl, rfl, rfl, ?_, ?_, ?_⟩
      · exact classify_paid_iff _ _
      · rintro ⟨h1, h2⟩
        exact classify_partial _ _ h1 h2
      · intro h1 h2
        exact classify_pending _ _ h1 h2
  · intro db r iid inv hinv hamt hmeth hfind
    have key := createPayment_invoice_eq db r iid inv hinv hamt hmeth hfind
    refine ⟨⟨?_, ?_⟩, ?_, ?_⟩
    · intro hex
      rw [key, if_pos hex]
    · intro heq
      by_cases hex : inv.total < sumCompletedInvoice db iid + r.amount
      · exact hex
      · rw [key, if_neg hex] at heq
        exact absurd heq (by simp)
    · intro hex
      unfold runCreatePayment
      rw [key, if_pos hex]
    · intro hex
      rw [key, if_neg hex]
      have hpay := payInvoiceResult_payments db r iid inv
      have hsum : sumCompletedInvoice (payInvoiceResult db r iid inv) iid =
          sumCompletedInvoice db iid + r.amount :=
        sumCompletedInvoice_append db _ iid _ hpay rfl rfl
      refine ⟨payInvoiceResult db r iid inv, invoicePayRow db r iid inv, rfl, hpay,
        rfl, rfl, rfl, hsum, ?_⟩
      rw [payInvoiceResult_invoices, find?_setInvoicePaid_self, hfind]
      refine ⟨_, rfl, rfl, rfl, ?_, ?_⟩
      · show (if inv.total ≤ sumCompletedInvoice db iid + r.amount then "paid"
            else "pending") = "paid" ↔ _
        by_cases hle : inv.total ≤ sumCompletedInvoice db iid + r.amount
        · rw [if_pos hle]
          exact ⟨fun _ => hle, fun _ => rfl⟩
        · rw [if_neg hle]
          exact ⟨fun h => absurd h (by decide), fun h => absurd h hle⟩
      · intro hnle
        show (if inv.total ≤ sumCompletedInvoice db iid + r.amount then "paid"
            else "pending") = "pending"
        rw [if_neg hnle]
  · intro db pid u pay oid o hfind hord hofind hne
    simp only [updatePayment]
    rw [hfind]
    dsimp only
    rw [if_neg (by simp [hne]), hord]
    dsimp only
    unfold recomputeOrderPayStatus
    rw [orders_of_payments_update, hofind]
    dsimp only
    refine ⟨_, rfl, ?_⟩
    rw [find?_setOrderPayStatus_self, orders_of_payments_update, hofind]
    exact ⟨_, rfl, rfl, rfl⟩
  · intro db pid pay oid o hfind hord hofind
    simp only [deletePayment]
    rw [hfind]
    dsimp only
    rw [hord]
    dsimp only
    unfold recomputeOrderPayStatus
    rw [orders_of_payments_update, hofind]
    dsimp only
    refine ⟨_, rfl, rfl, ?_⟩
    rw [find?_setOrderPayStatus_self, orders_of_payments_update, hofind]
    exact ⟨_, rfl, rfl, rfl⟩

/-- Witness for C2: rejection, acceptance, update and delete at the
concrete order of total 100. -/
theorem payment_application_contract_witness :
    createPayment exPayDB exPayReqTooMuch = .error
      (.exceedsBalance exOrderForPay.total (sumCompletedOrder exPayDB 1)
        (exOrderForPay.total - sumCompletedOrder exPayDB 1)) ∧
    (∃ db' pay, createPayment exPayDB exPayReqOrder = .ok db' ∧
      db'.payments = exPayDB.payments ++ [pay] ∧ pay.status = "completed") ∧
    (∃ db' pay, createPayment exPayDB exPayReqInv = .ok db' ∧
      db'.payments = exPayDB.payments ++ [pay] ∧
      pay.status = "completed" ∧ pay.invoice_id = some 1 ∧
      ∃ inv', db'.invoices.find? (fun x => x.id == 1) = some inv' ∧
        inv'.paid_amount = sumCompletedInvoice exPayDB 1 + exPayReqInv.amount) ∧
    (∃ db', updatePayment exPayDB2 1 exPayUpd = .ok db' ∧
      ∃ o', db'.orders.find? (fun x => x.id == 1) = some o') ∧
    (∃ db', deletePayment exPayDB2 1 = .ok db') := by
  refine ⟨?_, ?_, ?_, ?_, ?_⟩
  · exact ((payment_application_contract.1 exPayDB exPayReqTooMuch 1 exOrderForPay rfl rfl
      (by decide) rfl (by decide)).1).mp
      (by norm_num [sumCompletedOrder, exPayDB, emptyDB, exOrderForPay, exPayReqTooMuch])
  · obtain ⟨db', pay, h1, h2, h3, -⟩ :=
      (payment_application_contract.1 exPayDB exPayReqOrder 1 exOrderForPay rfl rfl
        (by decide) rfl (by decide)).2.2
        (by norm_num [sumCompletedOrder, exPayDB, emptyDB, exOrderForPay, exPayReqOrder])
    exact ⟨db', pay, h1, h2, h3⟩
  · obtain ⟨db', pay, h1, h2, h3, -, h5, -, inv', h7, -, h9, -⟩ :=
      (payment_application_contract.2.1 exPayDB exPayReqInv 1 exInvoice rfl
        (by decide) rfl (by decide)).2.2
        (by norm_num [sumCompletedInvoice, exPayDB, emptyDB, exInvoice, exPayReqInv])
    exact ⟨db', pay, h1, h2, h3, h5, inv', h7, h9⟩
  · obtain ⟨db', h1, o', h2, -⟩ :=
      payment_application_contract.2.2.1 exPayDB2 1 exPayUpd exPayment 1 exOrderForPay
        (by decide) rfl (by decide) (by decide)
    exact ⟨db', h1, o', h2⟩
  · obtain ⟨db', h1, -⟩ :=
      payment_application_contract.2.2.2 exPayDB2 1 exPayment 1 exOrderForPay
        (by decide) rfl (by decide)
    exact ⟨db', h1⟩

/-! ## Claim C10 -/

/-- C10 counterexample: a request supplying both an order id and an invoice
id is accepted, with the invoice branch taking precedence, contrary to the
claim that it is not accepted. -/
theorem payment_both_ids_counterexample :
    (createPayment exPayDB exPayReqBoth).isOk = true ∧
    ∃ db', createPayment exPayDB exPayReqBoth = .ok db' ∧
      db'.payments.map (fun p => (p.order_id, p.invoice_id, p.status)) =
        [(some 1, some 1, "completed")] := by
  have key := createPayment_invoice_eq exPayDB exPayReqBoth 1 exInvoice rfl
    (by decide) rfl (by decide)
  have hex : ¬ exInvoice.total < sumCompletedInvoice exPayDB 1 + exPayReqBoth.amount := by
    norm_num [sumCompletedInvoice, exPayDB, emptyDB, exInvoice, exPayReqBoth]
  rw [key, if_neg hex]
  refine ⟨rfl, _, rfl, ?_⟩
  simp [payInvoiceResult, payInvoiceBase, invoicePayRow, exPayDB, emptyDB, exPayReqBoth,
    exInvoice, setOrderPayStatus, setInvoicePaid, exOrderForPay]

/-- C10 amended: payment creation rejects a request with neither id, a zero
or negative amount, or a missing payment method before any write; a request
supplying both ids is accepted, the invoice branch taking precedence, and
the inserted payment row is linked to both the order and the invoice. -/
theorem payment_validation_contract :
    (∀ (db : DB) (r : PayReq), r.order_id = none → r.invoice_id = none →
      createPayment db r = .error .missingFields ∧ runCreatePayment db r = db) ∧
    (∀ (db : DB) (r : PayReq), r.amount = 0 →
      createPayment db r = .error .missingFields ∧ runCreatePayment db r = db) ∧
    (∀ (db : DB) (r : PayReq), r.amount < 0 →
      (createPayment db r = .error .missingFields ∨
        createPayment db r = .error .nonPositiveAmount) ∧ runCreatePayment db r = db) ∧
    (∀ (db : DB) (r : PayReq), r.payment_method = none →
      createPayment db r = .error .missingFields ∧ runCreatePayment db r = db) ∧
    (∀ (db : DB) (r : PayReq) (oid iid : Nat) (inv : Invoice),
      r.order_id = some oid → r.invoice_id = some iid → 0 < r.amount →
      r.payment_method.isSome →
      db.invoices.find? (fun i => i.id == iid) = some inv →
      ¬ inv.total < sumCompletedInvoice db iid + r.amount →
      ∃ db' pay, createPayment db r = .ok db' ∧ db'.payments = db.payments ++ [pay] ∧
        pay.order_id = some oid ∧ pay.invoice_id = some iid ∧
        pay.status = "completed") := by
  refine ⟨?_, ?_, ?_, ?_, ?_⟩
  · intro db r ho hi
    have herr : createPayment db r = .error .missingFields := by
      simp only [createPayment]
      rw [if_pos (by rw [ho, hi]; simp)]
    exact ⟨herr, by unfold runCreatePayment; rw [herr]⟩
  · intro db r ha
    have herr : createPayment db r = .error .missingFields := by
      simp only [createPayment]
      rw [if_pos (by rw [ha]; simp)]
    exact ⟨herr, by unfold runCreatePayment; rw [herr]⟩
  · intro db r ha
    by_cases hb : ((r.order_id.isNone && r.invoice_id.isNone) || r.amount == 0
        || r.payment_method.isNone) = true
    · have herr : createPayment db r = .error .missingFields := by
        simp only [createPayment]
        rw [if_pos hb]
      exact ⟨Or.inl herr, by unfold runCreatePayment; rw [herr]⟩
    · have herr : createPayment db r = .error .nonPositiveAmount := by
        simp only [createPayment]
        rw [if_neg hb, if_pos (le_of_lt ha)]
      exact ⟨Or.inr herr, by unfold runCreatePayment; rw [herr]⟩
  · intro db r hm
    have herr : createPayment db r = .error .missingFields := by
      simp only [createPayment]
      rw [if_pos (by rw [hm]; simp)]
    exact ⟨herr, by unfold runCreatePayment; rw [herr]⟩
  · intro db r oid iid inv hord hinv hamt hmeth hfind hex
    have key := createPayment_invoice_eq db r iid inv hinv hamt hmeth hfind
    rw [key, if_neg hex]
    refine ⟨payInvoiceResult db r iid inv, invoicePayRow db r iid inv, rfl, ?_, ?_, rfl, rfl⟩
    · simp only [payInvoiceResult, hord]
      rfl
    · show r.order_id = some oid
      exact hord

/-- Witness for C10 amended: a no-id request is rejected and the both-ids
request is accepted with a doubly-linked payment row. -/
theorem payment_validation_contract_witness :
    createPayment exPayDB exPayReqNone = .error .missingFields ∧
    (∃ db' pay, createPayment exPayDB exPayReqBoth = .ok db' ∧
      db'.payments = exPayDB.payments ++ [pay] ∧
      pay.order_id = some 1 ∧ pay.invoice_id = some 1 ∧ pay.status = "completed") := by
  constructor
  · exact (payment_validation_contract.1 exPayDB exPayReqNone rfl rfl).1
  · exact payment_validation_contract.2.2.2.2 exPayDB exPayReqBoth 1 1 exInvoice rfl rfl
      (by decide) rfl (by decide)
      (by norm_num [sumCompletedInvoice, exPayDB, emptyDB, exInvoice, exPayReqBoth])

/-! ## Claim C7 -/

/-- C7 counterexample: a cancelled order is included in the derived balance
the customer read endpoints return, so the claim that the balance excludes
cancelled orders is false. -/
theorem customer_balance_counterexample :
    customersListBalance exDB7 1 = 100 ∧
    specCustomerBalance exDB7 1 = 0 ∧
    (100 : ℚ) ≠ 0 := by
  refine ⟨?_, ?_, by norm_num⟩
  · norm_num [customersListBalance, customerTotalSpent, customerTotalPaid, exDB7,
      emptyDB, exOrderForPay]
  · norm_num [specCustomerBalance, customerTotalPaid, exDB7, emptyDB, exOrderForPay]

/-- C7 amended: both customer read endpoints derive the balance per request
as the sum of ALL of the customer's order totals (no status filter:
cancelled orders included) minus the sum of completed payments; the derived
figure is independent of the stored `customers.balance` column, which the
separate adjust-balance endpoint alone mutates without touching orders or
payments. -/
theorem customer_balance_derived :
    (∀ (db : DB) (cid : Nat),
      customerAccountBalance db cid = customersListBalance db cid) ∧
    (∀ (db : DB) (cid : Nat) (cs : List Customer),
      customersListBalance ({ db with customers := cs }) cid =
        customersListBalance db cid ∧
      customerAccountBalance ({ db with customers := cs }) cid =
        customerAccountBalance db cid) ∧
    (∀ (db : DB) (cid cid' : Nat) (amount : ℚ) (operation : String),
      customersListBalance (runAdjustBalance db cid amount operation) cid' =
        customersListBalance db cid' ∧
      (runAdjustBalance db cid amount operation).orders = db.orders ∧
      (runAdjustBalance db cid amount operation).payments = db.payments) := by
  have honly : ∀ (db : DB) (cid : Nat) (amount : ℚ) (operation : String),
      (runAdjustBalance db cid amount operation).orders = db.orders ∧
      (runAdjustBalance db cid amount operation).payments = db.payments := by
    intro db cid amount operation
    unfold runAdjustBalance
    cases ha : adjustBalance db cid amount operation with
    | error e => exact ⟨rfl, rfl⟩
    | ok db' =>
      simp only [adjustBalance] at ha
      cases hf : db.customers.find? (fun c => c.id == cid) with
      | none => rw [hf] at ha; exact absurd ha (by simp)
      | some c =>
        rw [hf] at ha
        dsimp only at ha
        cases ha
        exact ⟨rfl, rfl⟩
  refine ⟨fun db cid => rfl, fun db cid cs => ⟨rfl, rfl⟩, ?_⟩
  intro db cid cid' amount operation
  obtain ⟨ho, hp⟩ := honly db cid amount operation
  refine ⟨?_, ho, hp⟩
  unfold customersListBalance customerTotalSpent customerTotalPaid
  rw [ho, hp]

/-! ## Claim C8 -/

/-- C8 counterexample: the close-register handler inserts the request
body's `total_sales` verbatim — here 999 into a store whose computed sales
total for the day is 0 — so the claim that the inserted row's total equals
the day's computed sales total is false. -/
theorem register_close_counterexample :
    (closeRegister emptyDB exCloseReq).register_closures.map RegisterClosure.total_sales
      = [999] ∧
    daySalesTotal emptyDB 7 = 0 ∧
    (999 : ℚ) ≠ 0 := by
  exact ⟨rfl, rfl, by norm_num⟩

/-- C8 amended: the summary endpoint computes the day's per-supplier sales,
completed payments, remaining inventory and the sales total; the close
endpoint performs no queries — it wraps the request body's three breakdowns
into a composite `sales`/`payments`/`inventory` object and appends exactly
one closure row carrying the body's `total_sales` verbatim, touching no
other table; the inserted row's total equals the day's computed sales total
when (and only by construction when) the body is the unmodified summary
response. -/
theorem register_close_effects :
    (∀ (db : DB) (r : CloseReq),
      (closeRegister db r).register_closures = db.register_closures ++
        [{ total_sales := r.total_sales,
           details := { sales := r.details, payments := r.payment_details,
                        inventory := r.inventory_details },
           notes := r.notes, user_id := r.user_id }] ∧
      (closeRegister db r).orders = db.orders ∧
      (closeRegister db r).order_items = db.order_items ∧
      (closeRegister db r).payments = db.payments ∧
      (closeRegister db r).products = db.products) ∧
    (∀ (db : DB) (date : Nat) (notes : Option String) (uid : Option Nat),
      (closeRegister db (closeReqOfSummary (registerSummary db date) notes uid)).register_closures =
        db.register_closures ++
          [{ total_sales := daySalesTotal db date,
             details := { sales := groupSales (daySalesRows db date),
                          payments := dayPayments db date,
                          inventory := dayInventory db },
             notes := notes, user_id := uid }]) :=
  ⟨fun _ _ => ⟨rfl, rfl, rfl, rfl, rfl⟩, fun _ _ _ _ => rfl⟩

end EduServices
